import Mathlib

/-!
# FluteVision game core — verification of the specification claims

Shallow embedding of the game core of the FluteVision repository
(`frontend/src/js/game/...`), modelling the latest snapshot of each source
file.  JavaScript numbers are modelled as exact rationals (`ℚ`); JS `Set`s of
strings are modelled as duplicate-free lists; reference identity of obstacle
objects (used by `array.filter(o => o !== hit)`) is modelled by a stable
spawn id (`oid`) tag, fresh ids being drawn from an engine counter.
Rendering, DOM and asset-manager fields are omitted: they carry no game
logic.  `Math.random()` draws are supplied by an oracle argument, and the
`Date.now()` clock by the per-tick `now` argument.
-/

namespace FluteVision


/-! ## GameConstants (frontend/src/js/game/config/GameConstants.js, latest) -/

def CANVAS_WIDTH : ℚ := 800

def CANVAS_HEIGHT : ℚ := 380

def PLAYER_WIDTH : ℚ := 80

def PLAYER_HEIGHT : ℚ := 120

def PLAYER_X : ℚ := 350

def PLAYER_GROUND_Y : ℚ := 320

def JUMP_VELOCITY : ℚ := -18

def GRAVITY : ℚ := 9/10

def OBSTACLE_MIN_WIDTH : ℚ := 30

def OBSTACLE_MAX_WIDTH : ℚ := 50

def OBSTACLE_MIN_HEIGHT : ℚ := 45

def OBSTACLE_MAX_HEIGHT : ℚ := 110

structure Difficulty where
  speed : ℚ
  spawnInterval : ℚ
  speedIncrease : ℚ
  maxSpeed : ℚ
deriving DecidableEq, Repr

def easyPreset : Difficulty := ⟨4, 2500, 3/10000, 8⟩

def mediumPreset : Difficulty := ⟨5, 2000, 5/10000, 12⟩

def hardPreset : Difficulty := ⟨7, 1500, 8/10000, 15⟩

/-- `GameConstants.getDifficultySettings`: `DIFFICULTY_PRESETS[difficulty] ||
DIFFICULTY_PRESETS.medium`. -/
def getDifficultySettings (difficulty : String) : Difficulty :=
  if difficulty = "easy" then easyPreset
  else if difficulty = "medium" then mediumPreset
  else if difficulty = "hard" then hardPreset
  else mediumPreset

/-! ## Rectangles and the collision system
(frontend/src/js/game/systems/CollisionSystem.js) -/

structure Rect where
  x : ℚ
  y : ℚ
  width : ℚ
  height : ℚ
deriving DecidableEq, Repr

/-- `CollisionSystem.checkCollision(rect1, rect2)` — the JS axis-aligned
bounding-box test, all four comparisons strict. -/
def checkCollision (rect1 rect2 : Rect) : Bool :=
  decide (rect1.x < rect2.x + rect2.width) &&
  decide (rect1.x + rect1.width > rect2.x) &&
  decide (rect1.y < rect2.y + rect2.height) &&
  decide (rect1.y + rect1.height > rect2.y)

/-! ## Player entity (frontend/src/js/game/entities/Player.js, latest snapshot:
`y` is the top edge, `y = groundY - height` on the ground). -/

structure Player where
  x : ℚ
  groundY : ℚ
  width : ℚ
  height : ℚ
  y : ℚ
  velocityY : ℚ
  isJumping : Bool
  canJump : Bool
deriving DecidableEq, Repr

def Player.init (x groundY : ℚ) : Player :=
  { x := x, groundY := groundY, width := PLAYER_WIDTH, height := PLAYER_HEIGHT
    y := groundY - PLAYER_HEIGHT, velocityY := 0, isJumping := false, canJump := true }

/-- `Player.jump()`: no-op unless `canJump` or the feet are within the 5-unit
grace distance of the ground (`playerBottom >= groundY - 5`). -/
def Player.jump (p : Player) : Player :=
  let playerBottom := p.y + p.height
  let nearGround := decide (playerBottom ≥ p.groundY - 5)
  if !p.canJump && !nearGround then p
  else { p with velocityY := JUMP_VELOCITY, isJumping := true, canJump := false }

/-- `Player.update()`: gravity integration, then ground clamping. -/
def Player.update (p : Player) : Player :=
  let v := p.velocityY + GRAVITY
  let y := p.y + v
  if y + p.height ≥ p.groundY then
    { p with velocityY := 0, y := p.groundY - p.height, isJumping := false, canJump := true }
  else
    { p with velocityY := v, y := y }

def Player.getBounds (p : Player) : Rect :=
  { x := p.x, y := p.y, width := p.width, height := p.height }

def Player.reset (p : Player) : Player :=
  { p with y := p.groundY - p.height, velocityY := 0, isJumping := false, canJump := true }

/-! ## Obstacle entity (frontend/src/js/game/entities/Obstacle.js).
`_randomRange(min, max)` = `Math.floor(random * (max - min + 1)) + min`; the
`random` draws (`u ∈ [0,1)`) are supplied by the caller's oracle.  `oid` tags
the object with its spawn index, modelling JS reference identity. -/

def randomRange (u lo hi : ℚ) : ℚ :=
  Rat.ofInt ((u * (hi - lo + 1)).floor) + lo

structure Obstacle where
  oid : ℕ
  x : ℚ
  groundY : ℚ
  speed : ℚ
  gesture : Option String
  width : ℚ
  height : ℚ
  y : ℚ
deriving DecidableEq, Repr

/-- The `Obstacle` constructor (size randomized at creation, `y = groundY - height`). -/
def Obstacle.spawn (oid : ℕ) (x groundY speed : ℚ) (gesture : Option String)
    (u : ℚ × ℚ) : Obstacle :=
  let w := randomRange u.1 OBSTACLE_MIN_WIDTH OBSTACLE_MAX_WIDTH
  let h := randomRange u.2 OBSTACLE_MIN_HEIGHT OBSTACLE_MAX_HEIGHT
  { oid := oid, x := x, groundY := groundY, speed := speed, gesture := gesture
    width := w, height := h, y := groundY - h }

/-- `Obstacle.update()`: `x -= speed`. -/
def Obstacle.update (o : Obstacle) : Obstacle :=
  { o with x := o.x - o.speed }

/-- `Obstacle.isOffScreen()`: `x + width < 0`. -/
def Obstacle.isOffScreen (o : Obstacle) : Bool :=
  decide (o.x + o.width < 0)

def Obstacle.getBounds (o : Obstacle) : Rect :=
  { x := o.x, y := o.y, width := o.width, height := o.height }

/-- `CollisionSystem.checkPlayerObstacleCollision(player, obstacles)`: walk the
obstacle list in order, return the first obstacle whose bounds overlap the
player's, else null. -/
def checkPlayerObstacleCollision (player : Player) : List Obstacle → Option Obstacle
  | [] => none
  | o :: rest =>
    if checkCollision player.getBounds o.getBounds then some o
    else checkPlayerObstacleCollision player rest

/-! ## Musical test model (frontend/src/js/game/music/MusicalTest.js)

A raw note as handed to the constructor: `gesture` may be the empty string
(JS falsy, "missing"), `time` is `none` when its JS value is not of number
type, `duration` is `none` when unspecified.  `MusicalTest._validateNotes`
sorts by `time`, throws if any note has a falsy gesture or a non-number
`time`, and replaces a falsy (absent or zero) duration by 1000. -/

structure Note where
  gesture : String
  time : ℚ
  duration : ℚ
deriving DecidableEq, Repr

structure MusicalTest where
  name : String
  description : String
  notes : List Note
deriving DecidableEq, Repr

/-- `getTotalDuration()`: 0 for an empty test, else last note `time + duration`. -/
def MusicalTest.getTotalDuration (t : MusicalTest) : ℚ :=
  match t.notes.getLast? with
  | none => 0
  | some lastNote => lastNote.time + lastNote.duration

structure RawNote where
  gesture : String
  time : Option ℚ
  duration : Option ℚ
deriving DecidableEq, Repr

/-- The per-note validation of `_validateNotes`: `!note.gesture ||
typeof note.time !== 'number'` means invalid. -/
def RawNote.isValid (r : RawNote) : Bool :=
  decide (r.gesture ≠ "") && r.time.isSome

/-- The note as stored after validation: `if (!note.duration) note.duration
= 1000` (JS falsy: absent or zero). -/
def RawNote.finalize (r : RawNote) : Note :=
  { gesture := r.gesture
    time := r.time.getD 0
    duration := match r.duration with
                | none => 1000
                | some d => if d = 0 then 1000 else d }

/-- Comparator of `this.notes.sort((a, b) => a.time - b.time)` as a `Bool`
order (on the erroring path — some `time` non-numeric — the JS comparator is
NaN and the order unspecified; the thrown error does not depend on it). -/
def rawTimeLE (a b : RawNote) : Bool :=
  decide (a.time.getD 0 ≤ b.time.getD 0)

/-- The `MusicalTest` constructor together with `_validateNotes`: sort by
time (JS `Array.sort` is stable mergesort), then fail iff some note has a
falsy gesture or non-number time, else store the finalized notes. -/
def mkMusicalTest (name description : String) (raws : List RawNote) :
    Except String MusicalTest :=
  let sorted := raws.mergeSort rawTimeLE
  if sorted.all RawNote.isValid then
    .ok { name := name, description := description, notes := sorted.map RawNote.finalize }
  else
    .error "Invalid note"

/-- Notes stored by a successful construction ([] on a failed one). -/
def exceptNotes (r : Except String MusicalTest) : List Note :=
  match r with
  | .ok t => t.notes
  | .error _ => []

/-! ## Score manager (ScoreManager.js).  The high score is loaded from the
external store at construction (`storedHighScore`); persisting it back is
external I/O and not modelled. -/

structure ScoreManager where
  score : ℤ
  highScore : ℤ
  combo : ℤ
  maxCombo : ℤ
deriving DecidableEq, Repr

def ScoreManager.init (storedHighScore : ℤ) : ScoreManager :=
  { score := 0, highScore := storedHighScore, combo := 0, maxCombo := 0 }

/-- `addPoint(points = 1)` — the engine always calls it with the default 1. -/
def ScoreManager.addPoint (sm : ScoreManager) : ScoreManager :=
  let score := sm.score + 1
  if score > sm.highScore then { sm with score := score, highScore := score }
  else { sm with score := score }

def ScoreManager.incrementCombo (sm : ScoreManager) : ScoreManager :=
  let combo := sm.combo + 1
  if combo > sm.maxCombo then { sm with combo := combo, maxCombo := combo }
  else { sm with combo := combo }

def ScoreManager.resetCombo (sm : ScoreManager) : ScoreManager :=
  { sm with combo := 0 }

/-- `ScoreManager.reset()`: clears score/combo/maxCombo, leaves `highScore`. -/
def ScoreManager.reset (sm : ScoreManager) : ScoreManager :=
  { sm with score := 0, combo := 0, maxCombo := 0 }

/-! ## Game engine (GameEngine.js, latest snapshot).

The render system, canvas, image manager and animation-frame ids are
omitted (pure output).  `Date.now() - startTime` is supplied per tick as
`now`; the `setTimeout` that ends the invulnerability window is modelled as
the separately scheduled `Ev.invulnEnd` event. -/

inductive GameEvent where
  | scoreUpdate (score highScore combo : ℤ)
  | livesUpdate (lives maxLives : ℤ)
  | noteChange (gesture : Option String) (time : ℚ)
  | testComplete (testName : String) (score maxCombo accuracy notesHit totalNotes : ℤ)
      (duration : ℚ)
  | gameOver (score combo maxCombo : ℤ)
deriving DecidableEq, Repr

/-- Decimal fraction digits of `r / b` (with `0 ≤ r < b`). The fuel covers
every number the game can hold: a JS double is a dyadic rational, whose
exact decimal expansion has at most 1074 fraction digits. -/
def decDigits : ℕ → ℕ → ℕ → String
  | 0, _, _ => ""
  | _, 0, _ => ""
  | fuel + 1, r, b =>
    String.singleton (Char.ofNat (48 + r * 10 / b)) ++ decDigits fuel (r * 10 % b) b

/-- The JS template-literal rendering `${x}` of a number, on the exact
rationals of the embedding: sign, integer part, and the decimal fraction
digits when the value is not an integer. -/
def jsNumStr (q : ℚ) : String :=
  (if q < 0 then "-" else "") ++ toString (q.num.natAbs / q.den) ++
    (if q.num.natAbs % q.den = 0 then ""
     else "." ++ decDigits 1100 (q.num.natAbs % q.den) q.den)

/-- The JS duplicate-detection key `` `${note.gesture}-${note.time}` ``: the
gesture, a dash, and the rendered time. Distinct (gesture, time) pairs can
share a key — for example gesture `"E-"` at time `5` and gesture `"E"` at
time `-5` both give `"E--5"`. -/
def noteId (n : Note) : String :=
  n.gesture ++ "-" ++ jsNumStr n.time

/-- JS `Math.round`: round half toward positive infinity. -/
def jsRound (q : ℚ) : ℤ :=
  (q + 1/2).floor

structure Engine where
  player : Player
  obstacles : List Obstacle
  scoreManager : ScoreManager
  isRunning : Bool
  isPaused : Bool
  elapsedTime : ℚ
  frameCount : ℤ
  difficultySettings : Difficulty
  gameSpeed : ℚ
  lastObstacleTime : ℚ
  musicalTest : Option MusicalTest
  testMode : Bool
  processedNotes : List String
  testCompleted : Bool
  currentTargetGesture : Option String
  lives : ℤ
  maxLives : ℤ
  invulnerable : Bool
  nextOid : ℕ
deriving DecidableEq, Repr

/-- The `GameEngine` constructor. -/
def Engine.init (difficulty : String) (storedHighScore : ℤ) : Engine :=
  let ds := getDifficultySettings difficulty
  { player := Player.init PLAYER_X PLAYER_GROUND_Y
    obstacles := []
    scoreManager := ScoreManager.init storedHighScore
    isRunning := false
    isPaused := false
    elapsedTime := 0
    frameCount := 0
    difficultySettings := ds
    gameSpeed := ds.speed
    lastObstacleTime := -ds.spawnInterval
    musicalTest := none
    testMode := false
    processedNotes := []
    testCompleted := false
    currentTargetGesture := none
    lives := 3
    maxLives := 3
    invulnerable := false
    nextOid := 0 }

def Engine.setMusicalTest (e : Engine) (test : Option MusicalTest) : Engine :=
  { e with musicalTest := test
           testMode := test.isSome
           processedNotes := []
           testCompleted := false }

def Engine.start (e : Engine) : Engine :=
  if e.isRunning then e
  else { e with isRunning := true, isPaused := false, elapsedTime := 0 }

def Engine.pause (e : Engine) : Engine :=
  { e with isPaused := true }

def Engine.resume (e : Engine) : Engine :=
  { e with isPaused := false }

def Engine.stop (e : Engine) : Engine :=
  { e with isRunning := false }

/-- `GameEngine.reset()` with the events it emits. -/
def Engine.reset (e : Engine) : Engine × List GameEvent :=
  let e2 := { e with obstacles := ([] : List Obstacle)
                     player := e.player.reset
                     scoreManager := e.scoreManager.reset
                     gameSpeed := e.difficultySettings.speed
                     frameCount := 0
                     lastObstacleTime := -e.difficultySettings.spawnInterval
                     elapsedTime := 0
                     processedNotes := ([] : List String)
                     testCompleted := false
                     currentTargetGesture := none
                     lives := e.maxLives
                     invulnerable := false }
  (e2, [GameEvent.scoreUpdate 0 e2.scoreManager.highScore 0,
        GameEvent.livesUpdate e2.lives e2.maxLives])

def Engine.makePlayerJump (e : Engine) : Engine :=
  { e with player := e.player.jump }

/-- `_createObstacle(gesture)`: obstacle at the right edge with the current
game speed; `u` supplies the two `Math.random()` draws for the size. -/
def Engine.createObstacle (e : Engine) (gesture : Option String) (u : ℚ × ℚ) : Engine :=
  let o := Obstacle.spawn e.nextOid CANVAS_WIDTH PLAYER_GROUND_Y e.gameSpeed gesture u
  { e with obstacles := e.obstacles ++ [o], nextOid := e.nextOid + 1 }

def Engine.spawnRandomObstacles (e : Engine) (rng : ℕ → ℚ × ℚ) : Engine :=
  if e.elapsedTime - e.lastObstacleTime > e.difficultySettings.spawnInterval then
    { e.createObstacle none (rng 0) with lastObstacleTime := e.elapsedTime }
  else e

/-- `_spawnMusicalObstacles`'s per-note lead time:
`travelDistance / pixelsPerMs` with `travelDistance = CANVAS_WIDTH - PLAYER_X`
and `pixelsPerMs = gameSpeed / (1000/60)`. -/
def Engine.spawnLeadTime (e : Engine) : ℚ :=
  (CANVAS_WIDTH - PLAYER_X) / (e.gameSpeed / (1000 / 60))

/-- The body of the `for (const note of notes)` loop of
`_spawnMusicalObstacles`; `k` indexes the random draws consumed so far this
tick. -/
def Engine.spawnNoteLoop (rng : ℕ → ℚ × ℚ) : Engine → List Note → ℕ → Engine
  | e, [], _ => e
  | e, note :: rest, k =>
    let spawnTime := note.time - e.spawnLeadTime
    if e.elapsedTime ≥ spawnTime ∧ noteId note ∉ e.processedNotes then
      let e2 := e.createObstacle (some note.gesture) (rng k)
      let e3 := { e2 with processedNotes := e2.processedNotes ++ [noteId note] }
      Engine.spawnNoteLoop rng e3 rest (k + 1)
    else
      Engine.spawnNoteLoop rng e rest k

def Engine.spawnMusicalObstacles (e : Engine) (rng : ℕ → ℚ × ℚ) : Engine :=
  match e.musicalTest with
  | none => e
  | some test => Engine.spawnNoteLoop rng e test.notes 0

/-- `_updateTargetGesture()`: closest in-range obstacle ahead of the player
decides the target gesture; emits a note-change on any change (or on losing
the target). -/
def Engine.updateTargetGesture (e : Engine) : Engine × List GameEvent :=
  let obstaclesInFront := e.obstacles.filter
    (fun o => decide (o.x + o.width > PLAYER_X) && decide (o.x < PLAYER_X + 400))
  match obstaclesInFront with
  | [] =>
    if e.currentTargetGesture ≠ none then
      ({ e with currentTargetGesture := none }, [GameEvent.noteChange none e.elapsedTime])
    else (e, [])
  | first :: rest =>
    let closest := rest.foldl
      (fun closest o => if o.x - PLAYER_X < closest.x - PLAYER_X then o else closest) first
    match closest.gesture with
    | none => (e, [])
    | some g =>
      if g ≠ "" ∧ some g ≠ e.currentTargetGesture then
        ({ e with currentTargetGesture := some g }, [GameEvent.noteChange (some g) e.elapsedTime])
      else (e, [])

/-- The off-screen filter of `_update()` (in list order; each removed
obstacle scores a point, bumps the combo and emits a score update). -/
def pruneLoop : ScoreManager → List Obstacle → ScoreManager × List Obstacle × List GameEvent
  | sm, [] => (sm, [], [])
  | sm, o :: rest =>
    if o.isOffScreen then
      let sm2 := sm.addPoint.incrementCombo
      let r := pruneLoop sm2 rest
      (r.1, r.2.1, GameEvent.scoreUpdate sm2.score sm2.highScore sm2.combo :: r.2.2)
    else
      let r := pruneLoop sm rest
      (r.1, o :: r.2.1, r.2.2)

def Engine.handleGameOver (e : Engine) : Engine × List GameEvent :=
  let e2 := e.stop
  (e2, [GameEvent.gameOver e2.scoreManager.score e2.scoreManager.combo e2.scoreManager.maxCombo])

/-- `_handleCollision(hitObstacle)`: `obstacles.filter(o => o !== hit)` is a
removal by reference identity, modelled by the spawn id `oid`. -/
def Engine.handleCollision (e : Engine) (hit : Obstacle) : Engine × List GameEvent :=
  let e2 := { e with obstacles := e.obstacles.filter (fun o => decide (o.oid ≠ hit.oid))
                     lives := e.lives - 1
                     scoreManager := e.scoreManager.resetCombo }
  let evs := [GameEvent.livesUpdate e2.lives e2.maxLives]
  if e2.lives ≤ 0 then
    let r := e2.handleGameOver
    (r.1, evs ++ r.2)
  else
    ({ e2 with invulnerable := true }, evs)

/-- `_checkTestCompletion()` together with the events it emits. -/
def Engine.checkTestCompletion (e : Engine) : Engine × List GameEvent :=
  match e.musicalTest with
  | none => (e, [])
  | some test =>
    if e.processedNotes.length = test.notes.length ∧ e.obstacles.length = 0 then
      let e2 := { e with testCompleted := true, isRunning := false }
      let totalNotes : ℤ := test.notes.length
      let livesLost := e.maxLives - e.lives
      let notesHit := totalNotes - livesLost
      let accuracy :=
        if totalNotes > 0 then jsRound (((notesHit : ℚ) / (totalNotes : ℚ)) * 100) else 100
      (e2, [GameEvent.testComplete test.name e.scoreManager.score e.scoreManager.maxCombo
              accuracy notesHit totalNotes test.getTotalDuration])
    else (e, [])

/-- `_updateDifficulty()` (snapshot 3: returns immediately in test mode). -/
def Engine.updateDifficulty (e : Engine) : Engine :=
  if e.testMode then e
  else if e.gameSpeed < e.difficultySettings.maxSpeed then
    let newSpeed := e.gameSpeed + e.difficultySettings.speedIncrease
    { e with gameSpeed := newSpeed
             obstacles := e.obstacles.map (fun o => { o with speed := newSpeed }) }
  else e

/-! `_update()` is embedded statement by statement; each JS statement (or
guarded statement pair) becomes one named phase, composed in order by
`Engine.update`. -/

/-- `if (this.testMode) _spawnMusicalObstacles() else _spawnRandomObstacles()`. -/
def Engine.spawnPhase (e : Engine) (rng : ℕ → ℚ × ℚ) : Engine :=
  if e.testMode then e.spawnMusicalObstacles rng else e.spawnRandomObstacles rng

/-- `if (this.testMode) this._updateTargetGesture()`. -/
def Engine.targetPhase (e : Engine) : Engine × List GameEvent :=
  if e.testMode then e.updateTargetGesture else (e, [])

/-- `this.obstacles = this.obstacles.filter(...)` — off-screen removal with
scoring. -/
def Engine.prunePhase (e : Engine) : Engine × List GameEvent :=
  let pr := pruneLoop e.scoreManager e.obstacles
  ({ e with scoreManager := pr.1, obstacles := pr.2.1 }, pr.2.2)

/-- `if (this.testMode && !this.testCompleted) this._checkTestCompletion()`. -/
def Engine.completionPhase (e : Engine) : Engine × List GameEvent :=
  if e.testMode ∧ e.testCompleted = false then e.checkTestCompletion else (e, [])

/-- `if (!this.invulnerable) { ... collision check ... }`. -/
def Engine.collisionPhase (e : Engine) : Engine × List GameEvent :=
  if e.invulnerable = false then
    match checkPlayerObstacleCollision e.player e.obstacles with
    | some hit => e.handleCollision hit
    | none => (e, [])
  else (e, [])

/-- `if (!this.testMode) this._updateDifficulty()`. -/
def Engine.difficultyPhase (e : Engine) : Engine :=
  if e.testMode = false then e.updateDifficulty else e

/-- `_update()`: player physics, spawn, obstacle translation, target gesture
(test mode), off-screen pruning, completion check, collision handling,
difficulty ramp (random mode). -/
def Engine.update (e : Engine) (rng : ℕ → ℚ × ℚ) : Engine × List GameEvent :=
  let e1 := { e with frameCount := e.frameCount + 1, player := e.player.update }
  let e2 := e1.spawnPhase rng
  let e3 := { e2 with obstacles := e2.obstacles.map Obstacle.update }
  let tg := e3.targetPhase
  let pr := tg.1.prunePhase
  let tc := pr.1.completionPhase
  let col := tc.1.collisionPhase
  let e8 := col.1.difficultyPhase
  (e8, tg.2 ++ pr.2 ++ tc.2 ++ col.2)

/-- One `_gameLoop()` round: no-op unless running and unpaused; sets
`elapsedTime := Date.now() - startTime` (supplied as `now`), then `_update()`
(`_render()` is pure output). -/
def Engine.tick (e : Engine) (now : ℚ) (rng : ℕ → ℚ × ℚ) : Engine × List GameEvent :=
  if e.isRunning && !e.isPaused then
    Engine.update { e with elapsedTime := now } rng
  else (e, [])

/-- External events a running session can receive: scheduled ticks (with the
clock value and the random draws), gesture-driven jumps, the invulnerability
timeout, pause and resume. -/
inductive Ev where
  | tick (now : ℚ) (rng : ℕ → ℚ × ℚ)
  | jump
  | invulnEnd
  | pause
  | resume

def step (e : Engine) : Ev → Engine × List GameEvent
  | Ev.tick now rng => e.tick now rng
  | Ev.jump => (e.makePlayerJump, [])
  | Ev.invulnEnd => ({ e with invulnerable := false }, [])
  | Ev.pause => (e.pause, [])
  | Ev.resume => (e.resume, [])

/-- Run a sequence of events, collecting the final state and all emitted
callbacks in order. -/
def runTrace (e : Engine) : List Ev → Engine × List GameEvent
  | [] => (e, [])
  | ev :: rest =>
    let r := step e ev
    let r2 := runTrace r.1 rest
    (r2.1, r.2 ++ r2.2)

/-- A fresh session as `GameController._startGameplay` builds it: a freshly
constructed (or equivalently reset) engine, `setMusicalTest(test-or-null)`,
then `start()`. -/
def session (difficulty : String) (storedHighScore : ℤ) (mt : Option MusicalTest) : Engine :=
  ((Engine.init difficulty storedHighScore).setMusicalTest mt).start

/-! ## The lives / invulnerability state machine over whole sessions -/

def LivesInv (e : Engine) : Prop :=
  e.maxLives = 3 ∧ 0 ≤ e.lives ∧ e.lives ≤ 3 ∧ (e.isRunning = true → 1 ≤ e.lives)

def GameEvent.isTestCompleteEv : GameEvent → Bool
  | GameEvent.testComplete _ _ _ _ _ _ _ => true
  | _ => false

def GameEvent.isGameOverEv : GameEvent → Bool
  | GameEvent.gameOver _ _ _ => true
  | _ => false

/-! ## The test-session invariant -/

/-- The spawn lead time of a test session at difficulty `difficulty` (the
speed is frozen, so it is a session constant). -/
def leadFor (difficulty : String) : ℚ :=
  (CANVAS_WIDTH - PLAYER_X) / ((getDifficultySettings difficulty).speed / (1000 / 60))

/-- Invariant of every reachable state of a test-mode session: mode and test
fixed, speed frozen, lives in range (and positive while running), score
non-negative, and the accounting identity
`livesLost + score + live obstacles = processed notes`, with processed note
ids distinct and drawn from the test, and obstacle spawn ids distinct and
below the spawn counter (which counts every obstacle ever created). -/
structure TInv (dif : String) (t : MusicalTest) (e : Engine) : Prop where
  tm : e.testMode = true
  mt : e.musicalTest = some t
  ml : e.maxLives = 3
  lpos : 0 ≤ e.lives
  lub : e.lives ≤ 3
  lrun : e.isRunning = true → 1 ≤ e.lives
  gs : e.gameSpeed = (getDifficultySettings dif).speed
  snn : 0 ≤ e.scoreManager.score
  acct : (3 - e.lives) + e.scoreManager.score + (e.obstacles.length : ℤ) =
    (e.processedNotes.length : ℤ)
  pnd : e.processedNotes.Nodup
  psub : ∀ id ∈ e.processedNotes, id ∈ t.notes.map noteId
  noid : e.nextOid = e.processedNotes.length
  obnd : (e.obstacles.map Obstacle.oid).Nodup
  oblt : ∀ o ∈ e.obstacles, o.oid < e.nextOid

/-- Payload sanity of a completion event, checkable from the payload alone:
accuracy in [0,100], hit count within range, the accuracy formula, and the
specific 10-notes-2-missed = 80 instance. -/
def eventAccOK : GameEvent → Bool
  | GameEvent.testComplete _ _ _ acc hit tot _ =>
    decide (0 ≤ acc) && decide (acc ≤ 100) && decide (0 ≤ hit) && decide (hit ≤ tot) &&
    decide (acc = if 0 < tot then jsRound (((hit : ℤ) : ℚ) / ((tot : ℤ) : ℚ) * 100) else 100) &&
    (!(decide (tot = 10) && decide (hit = 8)) || decide (acc = 80))
  | _ => true

/-- The pause events of the event language. -/
def Ev.isPause : Ev → Bool
  | Ev.pause => true
  | _ => false

/-- A tick whose clock value is at least `q`. -/
def tickAtLeast (q : ℚ) : Ev → Bool
  | Ev.tick now _ => decide (q ≤ now)
  | _ => false

/-! ## Theorems -/

/-! ### Claims C3, C10, C6, C7 -/

theorem checkPlayerObstacleCollision_eq_find (player : Player) (obstacles : List Obstacle) :
    checkPlayerObstacleCollision player obstacles =
      obstacles.find? (fun o => checkCollision player.getBounds o.getBounds) := by
  induction obstacles with
  | nil => rfl
  | cons o rest ih =>
    by_cases h : checkCollision player.getBounds o.getBounds
    · simp [checkPlayerObstacleCollision, List.find?, h]
    · simp only [Bool.not_eq_true] at h
      simp [checkPlayerObstacleCollision, List.find?, h, ih]

/-- C3: the collision detector is a pure function of the player bounds and the
obstacle list (it is a Lean function of those arguments alone, mutating
nothing); it returns `none` exactly when no obstacle's axis-aligned box
overlaps the player's, and otherwise the first overlapping obstacle in
iteration order — formalized as agreement with `List.find?`, whose result is
the earliest list element satisfying the overlap test. -/
theorem collision_detector_first_overlap (player : Player) (obstacles : List Obstacle) :
    checkPlayerObstacleCollision player obstacles =
      obstacles.find? (fun o => checkCollision player.getBounds o.getBounds) ∧
    (checkPlayerObstacleCollision player obstacles = none ↔
      ∀ o ∈ obstacles, checkCollision player.getBounds o.getBounds = false) ∧
    (∀ hit : Obstacle, checkPlayerObstacleCollision player obstacles = some hit →
      hit ∈ obstacles ∧ checkCollision player.getBounds hit.getBounds = true) := by
  refine ⟨checkPlayerObstacleCollision_eq_find player obstacles, ?_, ?_⟩
  · rw [checkPlayerObstacleCollision_eq_find player obstacles]
    rw [List.find?_eq_none]
    constructor
    · intro h o ho
      have := h o ho
      simpa using this
    · intro h o ho
      simp [h o ho]
  · intro hit h
    rw [checkPlayerObstacleCollision_eq_find player obstacles] at h
    refine ⟨List.mem_of_find?_eq_some h, ?_⟩
    have := List.find?_some h
    simpa using this

/-- C3 witness: applies the theorem at a concrete player and two overlapping
obstacles and checks, by evaluation, that the first one is returned. -/
theorem collision_detector_first_overlap_witness :
    checkPlayerObstacleCollision (Player.init 350 320)
      [Obstacle.spawn 0 340 320 5 none (0, 0), Obstacle.spawn 1 340 320 5 none (0, 0)] =
      some (Obstacle.spawn 0 340 320 5 none (0, 0)) ∧
    (Obstacle.spawn 0 340 320 5 none (0, 0)) ∈
      [Obstacle.spawn 0 340 320 5 none (0, 0), Obstacle.spawn 1 340 320 5 none (0, 0)] := by
  have h := (collision_detector_first_overlap (Player.init 350 320)
    [Obstacle.spawn 0 340 320 5 none (0, 0), Obstacle.spawn 1 340 320 5 none (0, 0)]).2.2
  have e : checkPlayerObstacleCollision (Player.init 350 320)
      [Obstacle.spawn 0 340 320 5 none (0, 0), Obstacle.spawn 1 340 320 5 none (0, 0)] =
      some (Obstacle.spawn 0 340 320 5 none (0, 0)) := by decide!
  exact ⟨e, (h _ e).1⟩

/-- C10: the overlap test uses strict inequalities: `checkCollision` holds iff
the overlap is strictly positive on both axes, so two boxes that merely touch
(shared edge) are not a collision; in particular a box whose top edge equals
the other's bottom edge, or whose left edge equals the other's right edge, is
never reported. -/
theorem checkCollision_eq_true_iff (r1 r2 : Rect) :
    checkCollision r1 r2 = true ↔
      (r1.x < r2.x + r2.width ∧ r2.x < r1.x + r1.width ∧
       r1.y < r2.y + r2.height ∧ r2.y < r1.y + r1.height) := by
  simp [checkCollision, and_assoc]

theorem checkCollision_strict_overlap (r1 r2 : Rect)
    (hw1 : 0 < r1.width) (hh1 : 0 < r1.height) (hw2 : 0 < r2.width) (hh2 : 0 < r2.height) :
    (checkCollision r1 r2 = true ↔
      (max r1.x r2.x < min (r1.x + r1.width) (r2.x + r2.width) ∧
       max r1.y r2.y < min (r1.y + r1.height) (r2.y + r2.height))) ∧
    (∀ x w h : ℚ, checkCollision r1 { x := x, y := r1.y + r1.height, width := w, height := h } = false) ∧
    (∀ y w h : ℚ, checkCollision r1 { x := r1.x + r1.width, y := y, width := w, height := h } = false) := by
  refine ⟨?_, ?_, ?_⟩
  · rw [checkCollision_eq_true_iff]
    constructor
    · rintro ⟨h1, h2, h3, h4⟩
      exact ⟨max_lt (lt_min (by linarith) h1) (lt_min h2 (by linarith)),
             max_lt (lt_min (by linarith) h3) (lt_min h4 (by linarith))⟩
    · rintro ⟨hx, hy⟩
      refine ⟨lt_of_le_of_lt (le_max_left _ _) (hx.trans_le (min_le_right _ _)),
              lt_of_le_of_lt (le_max_right _ _) (hx.trans_le (min_le_left _ _)),
              lt_of_le_of_lt (le_max_left _ _) (hy.trans_le (min_le_right _ _)),
              lt_of_le_of_lt (le_max_right _ _) (hy.trans_le (min_le_left _ _))⟩
  · intro x w h
    rw [Bool.eq_false_iff]
    intro hc
    rcases (checkCollision_eq_true_iff _ _).mp hc with ⟨-, -, -, h4⟩
    exact lt_irrefl _ h4
  · intro y w h
    rw [Bool.eq_false_iff]
    intro hc
    rcases (checkCollision_eq_true_iff _ _).mp hc with ⟨-, h2, -, -⟩
    exact lt_irrefl _ h2

/-- C10 witness: concrete positive-size rectangles, one strictly overlapping
pair confirmed via the equivalence. -/
theorem checkCollision_strict_overlap_witness :
    (0:ℚ) < 10 ∧
    checkCollision { x := 0, y := 0, width := 10, height := 10 }
      { x := 5, y := 5, width := 10, height := 10 } = true := by
  refine ⟨by norm_num, ?_⟩
  have h := (checkCollision_strict_overlap
    { x := 0, y := 0, width := 10, height := 10 }
    { x := 5, y := 5, width := 10, height := 10 }
    (by norm_num) (by norm_num) (by norm_num) (by norm_num)).1
  exact h.mpr (by norm_num)

/-- C6: after every `Player.update()` the player's bottom edge `y + height` is
at or above ground level, over every sequence of `jump`/`update` calls; and
whenever gravity integration would carry the bottom to or past the ground,
`update` clamps `y` to `groundY - height`, zeroes `velocityY`, and re-arms
`canJump`. -/
theorem player_never_below_ground (p : Player) (h : p.y + (p.velocityY + GRAVITY) + p.height ≥ p.groundY) :
    (∀ q : Player, q.update.y + q.update.height ≤ q.groundY) ∧
    p.update = { p with velocityY := 0
                        y := p.groundY - p.height
                        isJumping := false
                        canJump := true } := by
  constructor
  · intro q
    show (Player.update q).y + (Player.update q).height ≤ q.groundY
    unfold Player.update
    by_cases hq : q.y + (q.velocityY + GRAVITY) + q.height ≥ q.groundY
    · simp only [ge_iff_le] at hq
      rw [if_pos (by linarith)]
      simp only
      linarith
    · push_neg at hq
      rw [if_neg (by simpa using by linarith)]
      simp only
      linarith
  · unfold Player.update
    rw [if_pos (by linarith)]

/-- C6 witness: a player one unit above the ground falls onto it and is clamped. -/
theorem player_never_below_ground_witness :
    ((Player.init 350 320).y + (((Player.init 350 320)).velocityY + GRAVITY) +
        (Player.init 350 320).height ≥ (Player.init 350 320).groundY) ∧
    (Player.init 350 320).update =
      { (Player.init 350 320) with velocityY := 0
                                   y := (Player.init 350 320).groundY - (Player.init 350 320).height
                                   isJumping := false
                                   canJump := true } := by
  refine ⟨by decide!, (player_never_below_ground (Player.init 350 320) (by decide!)).2⟩

/-- C7: `jump()` applies the upward impulse (velocity set to `JUMP_VELOCITY`,
`isJumping := true`, `canJump := false`) if and only if `canJump` is true or
the bottom edge is within 5 units of ground level (`groundY - (y + height) ≤ 5`);
otherwise it is a silent no-op returning the state unchanged. -/
theorem player_jump_iff_ready (p : Player) :
    p.jump = if p.canJump = true ∨ p.groundY - (p.y + p.height) ≤ 5 then
      { p with velocityY := JUMP_VELOCITY, isJumping := true, canJump := false }
    else p := by
  unfold Player.jump
  by_cases hc : p.canJump = true ∨ p.groundY - (p.y + p.height) ≤ 5
  · rw [if_pos hc]
    rcases hc with hc | hc
    · simp [hc]
    · have : p.y + p.height ≥ p.groundY - 5 := by linarith
      simp [this]
  · rw [if_neg hc]
    push_neg at hc
    obtain ⟨h1, h2⟩ := hc
    have : ¬(p.y + p.height ≥ p.groundY - 5) := by
      intro h
      exact absurd (by linarith) (not_le.mpr h2)
    simp [h1, this]

/-! ### Claim C8 -/

theorem all_mergeSort {α : Type} (l : List α) (le : α → α → Bool) (p : α → Bool) :
    (l.mergeSort le).all p = l.all p := by
  rw [Bool.eq_iff_iff, List.all_eq_true, List.all_eq_true]
  constructor
  · intro h x hx
    exact h x (List.mem_mergeSort.mpr hx)
  · intro h x hx
    exact h x (List.mem_mergeSort.mp hx)

/-- C8 counterexample: a note with gesture "C", numeric time 0 and specified
duration −5 passes validation, and the constructed test stores the
non-positive duration −5 unchanged — refuting "when construction succeeds
every note has a positive duration". -/
theorem musicalTest_negative_duration_kept :
    (mkMusicalTest "t" "d" [{ gesture := "C", time := some 0, duration := some (-5) }]).isOk
      = true ∧
    exceptNotes (mkMusicalTest "t" "d" [{ gesture := "C", time := some 0, duration := some (-5) }])
      = [{ gesture := "C", time := 0, duration := -5 }] ∧
    ¬(0 < (-5 : ℚ)) := by
  refine ⟨by decide!, by decide!, by norm_num⟩

/-- C8 (amended): construction fails exactly when some note lacks a gesture
or has a non-numeric time; on success the stored notes are sorted ascending
by time and every gesture is non-empty; an unspecified (or zero, JS-falsy)
duration defaults to 1000 ms; and every stored duration is positive provided
no specified input duration is negative (a negative specified duration is
stored unchanged). -/
theorem musicalTest_validation (nm d : String) (raws : List RawNote) :
    ((mkMusicalTest nm d raws).isOk = raws.all RawNote.isValid) ∧
    (exceptNotes (mkMusicalTest nm d raws)).Pairwise (fun a b => a.time ≤ b.time) ∧
    ((exceptNotes (mkMusicalTest nm d raws)).all (fun n => decide (n.gesture ≠ "")) = true) ∧
    (∀ g : String, ∀ tq : ℚ,
      RawNote.finalize { gesture := g, time := some tq, duration := none } =
        { gesture := g, time := tq, duration := 1000 }) ∧
    (raws.all (fun r => decide (0 ≤ r.duration.getD 0)) = true →
      (exceptNotes (mkMusicalTest nm d raws)).all (fun n => decide (0 < n.duration)) = true) := by
  have hsorted : (raws.mergeSort rawTimeLE).Pairwise (fun a b => rawTimeLE a b = true) := by
    apply List.sorted_mergeSort
    · intro a b c hab hbc
      simp only [rawTimeLE, decide_eq_true_eq] at hab hbc ⊢
      exact le_trans hab hbc
    · intro a b
      simp only [rawTimeLE, Bool.or_eq_true, decide_eq_true_eq]
      exact le_total _ _
  refine ⟨?_, ?_, ?_, ?_, ?_⟩
  · rw [mkMusicalTest, all_mergeSort]
    by_cases h : raws.all RawNote.isValid = true
    · simp [h, Except.isOk, Except.toBool]
    · simp only [Bool.not_eq_true] at h
      simp [h, Except.isOk, Except.toBool]
  · rw [mkMusicalTest]
    by_cases h : (raws.mergeSort rawTimeLE).all RawNote.isValid = true
    · rw [if_pos h]
      simp only [exceptNotes]
      refine List.Pairwise.map _ ?_ hsorted
      intro a b hab
      simp only [rawTimeLE, decide_eq_true_eq] at hab
      exact hab
    · simp only [Bool.not_eq_true] at h
      rw [if_neg (by simp [h])]
      simp [exceptNotes]
  · rw [mkMusicalTest]
    by_cases h : (raws.mergeSort rawTimeLE).all RawNote.isValid = true
    · rw [if_pos h]
      simp only [exceptNotes, List.all_eq_true]
      intro n hn
      rw [List.mem_map] at hn
      obtain ⟨r, hr, rfl⟩ := hn
      rw [List.all_eq_true] at h
      have := h r hr
      simp only [RawNote.isValid, Bool.and_eq_true, decide_eq_true_eq] at this
      simpa [RawNote.finalize] using this.1
    · simp only [Bool.not_eq_true] at h
      rw [if_neg (by simp [h])]
      simp [exceptNotes]
  · intro g tq
    rfl
  · intro hpos
    rw [mkMusicalTest]
    by_cases h : (raws.mergeSort rawTimeLE).all RawNote.isValid = true
    · rw [if_pos h]
      simp only [exceptNotes, List.all_eq_true]
      intro n hn
      rw [List.mem_map] at hn
      obtain ⟨r, hr, rfl⟩ := hn
      have hrmem : r ∈ raws := List.mem_mergeSort.mp hr
      rw [List.all_eq_true] at hpos
      have hd := hpos r hrmem
      simp only [decide_eq_true_eq] at hd ⊢
      simp only [RawNote.finalize]
      match hmatch : r.duration with
      | none => norm_num
      | some dv =>
        rw [hmatch] at hd
        simp only [Option.getD] at hd
        by_cases hz : dv = 0
        · simp [hz]
        · simp only [hz, if_false]
          exact lt_of_le_of_ne hd (Ne.symm hz)
    · simp only [Bool.not_eq_true] at h
      rw [if_neg (by simp [h])]
      simp [exceptNotes]

/-- C8 witness: the amended theorem applied to a concrete two-note input with
out-of-order times; all hypotheses discharged by evaluation. -/
theorem musicalTest_validation_witness :
    ((mkMusicalTest "w" "w"
        [{ gesture := "D", time := some 3, duration := none },
         { gesture := "C", time := some 1, duration := some 2 }]).isOk =
      ([{ gesture := "D", time := some 3, duration := none },
        { gesture := "C", time := some 1, duration := some 2 }] : List RawNote).all RawNote.isValid) ∧
    ([{ gesture := "D", time := some 3, duration := none },
      { gesture := "C", time := some 1, duration := some 2 }] : List RawNote).all
        (fun r => decide (0 ≤ r.duration.getD 0)) = true ∧
    (exceptNotes (mkMusicalTest "w" "w"
        [{ gesture := "D", time := some 3, duration := none },
         { gesture := "C", time := some 1, duration := some 2 }])).all
        (fun n => decide (0 < n.duration)) = true := by
  have h := musicalTest_validation "w" "w"
    [{ gesture := "D", time := some 3, duration := none },
     { gesture := "C", time := some 1, duration := some 2 }]
  exact ⟨h.1, by decide!, h.2.2.2.2 (by decide!)⟩

/-! ### Claim C9 -/

/-- C9: `reset()` restores `lives = maxLives`, `score = 0`, `combo = 0`, an
empty obstacle list, the preset's base game speed, and cleared
processed-note / test-completion state, while `highScore` is unchanged. -/
theorem reset_restores_initial_state (e : Engine) :
    (e.reset).1.lives = e.maxLives ∧
    (e.reset).1.scoreManager.score = 0 ∧
    (e.reset).1.scoreManager.combo = 0 ∧
    (e.reset).1.obstacles = [] ∧
    (e.reset).1.gameSpeed = e.difficultySettings.speed ∧
    (e.reset).1.processedNotes = [] ∧
    (e.reset).1.testCompleted = false ∧
    (e.reset).1.scoreManager.highScore = e.scoreManager.highScore := by
  exact ⟨rfl, rfl, rfl, rfl, rfl, rfl, rfl, rfl⟩

/-! ## Helper lemmas: per-phase characterizations of `_update()` -/

theorem ScoreManager.addPoint_score (sm : ScoreManager) : sm.addPoint.score = sm.score + 1 := by
  by_cases h : sm.score + 1 > sm.highScore <;> simp [ScoreManager.addPoint, h]

theorem ScoreManager.incrementCombo_score (sm : ScoreManager) :
    sm.incrementCombo.score = sm.score := by
  by_cases h : sm.combo + 1 > sm.maxCombo <;> simp [ScoreManager.incrementCombo, h]

theorem Obstacle.update_oid (o : Obstacle) : o.update.oid = o.oid := rfl

/-- `_updateTargetGesture` only rewrites `currentTargetGesture`, and its
events are all note changes. -/
theorem updateTargetGesture_spec (e : Engine) :
    ∃ g, (e.updateTargetGesture).1 = { e with currentTargetGesture := g } ∧
      ∀ ev ∈ (e.updateTargetGesture).2, ∃ a b, ev = GameEvent.noteChange a b := by
  unfold Engine.updateTargetGesture
  cases hfront : e.obstacles.filter
      (fun o => decide (o.x + o.width > PLAYER_X) && decide (o.x < PLAYER_X + 400)) with
  | nil =>
    dsimp only
    by_cases hng : e.currentTargetGesture ≠ none
    · refine ⟨none, ?_, ?_⟩
      · rw [if_pos hng]
      · rw [if_pos hng]
        simp
    · refine ⟨e.currentTargetGesture, ?_, ?_⟩
      · rw [if_neg hng]
      · rw [if_neg hng]
        simp
  | cons first rest =>
    dsimp only
    cases hg : (rest.foldl
        (fun closest o => if o.x - PLAYER_X < closest.x - PLAYER_X then o else closest)
        first).gesture with
    | none =>
      exact ⟨e.currentTargetGesture, rfl, by simp⟩
    | some g =>
      by_cases hcond : g ≠ "" ∧ some g ≠ e.currentTargetGesture
      · refine ⟨some g, ?_, ?_⟩
        · dsimp only
          rw [if_pos hcond]
        · dsimp only
          rw [if_pos hcond]
          simp
      · refine ⟨e.currentTargetGesture, ?_, ?_⟩
        · dsimp only
          rw [if_neg hcond]
        · dsimp only
          rw [if_neg hcond]
          simp

/-- The off-screen pruning pass: kept obstacles are exactly the on-screen
ones in order, the score rises by the number removed, and all events are
score updates. -/
theorem pruneLoop_spec (l : List Obstacle) (sm : ScoreManager) :
    ∃ k : ℕ,
      (pruneLoop sm l).2.1 = l.filter (fun o => !o.isOffScreen) ∧
      (pruneLoop sm l).2.1.length + k = l.length ∧
      (pruneLoop sm l).1.score = sm.score + k ∧
      ∀ ev ∈ (pruneLoop sm l).2.2, ∃ a b c, ev = GameEvent.scoreUpdate a b c := by
  induction l generalizing sm with
  | nil => exact ⟨0, rfl, rfl, by simp [pruneLoop], by simp [pruneLoop]⟩
  | cons o rest ih =>
    by_cases hoff : o.isOffScreen = true
    · obtain ⟨k, h1, h2, h3, h4⟩ := ih (sm.addPoint.incrementCombo)
      have hrw : pruneLoop sm (o :: rest) =
          ((pruneLoop (sm.addPoint.incrementCombo) rest).1,
           (pruneLoop (sm.addPoint.incrementCombo) rest).2.1,
           GameEvent.scoreUpdate (sm.addPoint.incrementCombo).score
             (sm.addPoint.incrementCombo).highScore (sm.addPoint.incrementCombo).combo ::
             (pruneLoop (sm.addPoint.incrementCombo) rest).2.2) := by
        rw [pruneLoop, if_pos hoff]
      refine ⟨k + 1, ?_, ?_, ?_, ?_⟩
      · rw [hrw]
        dsimp only
        rw [h1, List.filter_cons]
        simp [hoff]
      · rw [hrw]
        dsimp only
        simp only [List.length_cons]
        omega
      · rw [hrw]
        dsimp only
        rw [h3, ScoreManager.incrementCombo_score, ScoreManager.addPoint_score]
        push_cast
        ring
      · rw [hrw]
        dsimp only
        intro ev hev
        rcases List.mem_cons.mp hev with h | h
        · exact ⟨_, _, _, h⟩
        · exact h4 ev h
    · obtain ⟨k, h1, h2, h3, h4⟩ := ih sm
      have hrw : pruneLoop sm (o :: rest) =
          ((pruneLoop sm rest).1, o :: (pruneLoop sm rest).2.1, (pruneLoop sm rest).2.2) := by
        rw [pruneLoop, if_neg hoff]
      have hoffb : o.isOffScreen = false := by
        simpa using hoff
      refine ⟨k, ?_, ?_, ?_, ?_⟩
      · rw [hrw]
        dsimp only
        rw [h1, List.filter_cons]
        simp [hoffb]
      · rw [hrw]
        dsimp only
        simp only [List.length_cons]
        omega
      · rw [hrw]
        dsimp only
        exact h3
      · rw [hrw]
        dsimp only
        intro ev hev
        exact h4 ev hev

/-- `_handleCollision` characterized: one obstacle removed by identity, one
life lost, combo reset, then either stop-and-game-over or invulnerability. -/
theorem handleCollision_spec (e : Engine) (hit : Obstacle) :
    (e.handleCollision hit).1.obstacles = e.obstacles.filter (fun o => decide (o.oid ≠ hit.oid)) ∧
    (e.handleCollision hit).1.lives = e.lives - 1 ∧
    (e.handleCollision hit).1.maxLives = e.maxLives ∧
    (e.handleCollision hit).1.scoreManager = e.scoreManager.resetCombo ∧
    (e.handleCollision hit).1.processedNotes = e.processedNotes ∧
    (e.handleCollision hit).1.nextOid = e.nextOid ∧
    (e.handleCollision hit).1.testMode = e.testMode ∧
    (e.handleCollision hit).1.musicalTest = e.musicalTest ∧
    (e.handleCollision hit).1.gameSpeed = e.gameSpeed ∧
    (e.handleCollision hit).1.difficultySettings = e.difficultySettings ∧
    (e.handleCollision hit).1.testCompleted = e.testCompleted ∧
    (e.handleCollision hit).1.isPaused = e.isPaused ∧
    (e.handleCollision hit).1.elapsedTime = e.elapsedTime ∧
    (if e.lives - 1 ≤ 0 then
      (e.handleCollision hit).1.isRunning = false ∧
      (e.handleCollision hit).2 = [GameEvent.livesUpdate (e.lives - 1) e.maxLives,
        GameEvent.gameOver e.scoreManager.score 0 e.scoreManager.maxCombo]
    else
      (e.handleCollision hit).1.isRunning = e.isRunning ∧
      (e.handleCollision hit).1.invulnerable = true ∧
      (e.handleCollision hit).2 = [GameEvent.livesUpdate (e.lives - 1) e.maxLives]) := by
  unfold Engine.handleCollision Engine.handleGameOver Engine.stop
  dsimp only
  by_cases hl : e.lives - 1 ≤ 0
  · simp only [if_pos hl]
    simp
    exact ⟨rfl, rfl, rfl⟩
  · simp only [if_neg hl]
    simp

/-- The musical spawn loop characterized: it appends one obstacle and one
processed id per note whose spawn time has been reached and whose id is
fresh; appended ids are fresh, distinct and justified by the current
elapsed time; appended obstacles carry consecutive fresh spawn ids; and
every note whose spawn time has been reached ends up processed. -/
theorem spawnNoteLoop_spec (rng : ℕ → ℚ × ℚ) (notes : List Note) :
    ∀ (e : Engine) (k : ℕ),
    ∃ (obs : List Obstacle) (ids : List String),
      Engine.spawnNoteLoop rng e notes k =
        { e with obstacles := e.obstacles ++ obs
                 processedNotes := e.processedNotes ++ ids
                 nextOid := e.nextOid + ids.length } ∧
      obs.length = ids.length ∧
      ids.Nodup ∧
      (∀ id ∈ ids, id ∉ e.processedNotes ∧
        ∃ n ∈ notes, noteId n = id ∧ e.elapsedTime ≥ n.time - e.spawnLeadTime) ∧
      (∀ o ∈ obs, e.nextOid ≤ o.oid ∧ o.oid < e.nextOid + ids.length) ∧
      (obs.map Obstacle.oid).Nodup ∧
      (∀ n ∈ notes, e.elapsedTime ≥ n.time - e.spawnLeadTime →
        noteId n ∈ e.processedNotes ++ ids) := by
  induction notes with
  | nil =>
    intro e k
    refine ⟨[], [], ?_, rfl, List.nodup_nil, by simp, by simp, by simp, by simp⟩
    simp [Engine.spawnNoteLoop]
  | cons note rest ih =>
    intro e k
    by_cases hc : e.elapsedTime ≥ note.time - e.spawnLeadTime ∧ noteId note ∉ e.processedNotes
    · set newOb := Obstacle.spawn e.nextOid CANVAS_WIDTH PLAYER_GROUND_Y e.gameSpeed
        (some note.gesture) (rng k) with hOb
      set e3 := { e with obstacles := e.obstacles ++ [newOb]
                         processedNotes := e.processedNotes ++ [noteId note]
                         nextOid := e.nextOid + 1 } with he3
      have hstep : Engine.spawnNoteLoop rng e (note :: rest) k =
          Engine.spawnNoteLoop rng e3 rest (k + 1) := by
        rw [Engine.spawnNoteLoop, if_pos hc]
        rfl
      obtain ⟨obs, ids, heq, hlen, hnd, hmem, hoid, hoidnd, hcompl⟩ := ih e3 (k + 1)
      have hlead : e3.spawnLeadTime = e.spawnLeadTime := rfl
      have helap : e3.elapsedTime = e.elapsedTime := rfl
      refine ⟨newOb :: obs, noteId note :: ids, ?_, by simp [hlen], ?_, ?_, ?_, ?_, ?_⟩
      · rw [hstep, heq, he3]
        dsimp only
        congr 1
        · simp
        · simp
        · simp
          omega
      · rw [List.nodup_cons]
        refine ⟨?_, hnd⟩
        intro hmemid
        have := (hmem _ hmemid).1
        rw [he3] at this
        simp at this
      · intro id hid
        rcases List.mem_cons.mp hid with h | h
        · subst h
          exact ⟨hc.2, note, List.mem_cons_self note rest, rfl, hc.1⟩
        · obtain ⟨hb, n, hn, hneq, hcd⟩ := hmem id h
          rw [helap, hlead] at hcd
          refine ⟨?_, n, List.mem_cons_of_mem note hn, hneq, hcd⟩
          intro hin
          apply hb
          rw [he3]
          simp [hin]
      · intro o ho
        rcases List.mem_cons.mp ho with h | h
        · subst h
          rw [hOb]
          simp only [Obstacle.spawn, List.length_cons]
          omega
        · have := hoid o h
          rw [he3] at this
          simp only [List.length_cons] at this ⊢
          omega
      · rw [List.map_cons, List.nodup_cons]
        refine ⟨?_, hoidnd⟩
        intro hmemo
        rw [List.mem_map] at hmemo
        obtain ⟨o, ho, hoeq⟩ := hmemo
        have := (hoid o ho).1
        rw [he3] at this
        simp only at this
        rw [hOb] at hoeq
        simp only [Obstacle.spawn] at hoeq
        omega
      · intro n hn htime
        rcases List.mem_cons.mp hn with h | h
        · subst h
          simp
        · have := hcompl n h (by rw [helap, hlead]; exact htime)
          rw [he3] at this
          simp only [List.mem_append, List.mem_cons, List.mem_singleton] at this ⊢
          tauto
    · have hstep : Engine.spawnNoteLoop rng e (note :: rest) k =
          Engine.spawnNoteLoop rng e rest k := by
        rw [Engine.spawnNoteLoop, if_neg hc]
      obtain ⟨obs, ids, heq, hlen, hnd, hmem, hoid, hoidnd, hcompl⟩ := ih e k
      refine ⟨obs, ids, by rw [hstep, heq], hlen, hnd, ?_, hoid, hoidnd, ?_⟩
      · intro id hid
        obtain ⟨hb, n, hn, hneq, hcd⟩ := hmem id hid
        exact ⟨hb, n, List.mem_cons_of_mem note hn, hneq, hcd⟩
      · intro n hn htime
        rcases List.mem_cons.mp hn with h | h
        · subst h
          rcases not_and_or.mp hc with h1 | h1

          · exact absurd htime h1
          · rw [not_not] at h1
            exact List.mem_append.mpr (Or.inl h1)
        · exact hcompl n h htime

/-- `_checkTestCompletion` when the test is not yet complete. -/
theorem checkTestCompletion_not_complete (e : Engine) (t : MusicalTest)
    (hmt : e.musicalTest = some t)
    (h : ¬(e.processedNotes.length = t.notes.length ∧ e.obstacles.length = 0)) :
    e.checkTestCompletion = (e, []) := by
  unfold Engine.checkTestCompletion
  rw [hmt]
  dsimp only
  rw [if_neg h]

theorem checkTestCompletion_no_test (e : Engine) (hmt : e.musicalTest = none) :
    e.checkTestCompletion = (e, []) := by
  unfold Engine.checkTestCompletion
  rw [hmt]

/-- `_checkTestCompletion` at completion: stops the engine, marks the test
completed, and notifies once with the accuracy payload. -/
theorem checkTestCompletion_complete (e : Engine) (t : MusicalTest)
    (hmt : e.musicalTest = some t)
    (h : e.processedNotes.length = t.notes.length ∧ e.obstacles.length = 0) :
    e.checkTestCompletion =
      ({ e with testCompleted := true, isRunning := false },
       [GameEvent.testComplete t.name e.scoreManager.score e.scoreManager.maxCombo
          (if ((t.notes.length : ℤ)) > 0 then
            jsRound ((((t.notes.length : ℤ) - (e.maxLives - e.lives) : ℤ) : ℚ) /
              ((t.notes.length : ℤ) : ℚ) * 100)
          else 100)
          ((t.notes.length : ℤ) - (e.maxLives - e.lives)) (t.notes.length : ℤ)
          t.getTotalDuration]) := by
  unfold Engine.checkTestCompletion
  rw [hmt]
  dsimp only
  rw [if_pos h]

/-- `_spawnRandomObstacles` touches only the obstacle list, the spawn
counter and the last-spawn clock. -/
theorem spawnRandomObstacles_spec (e : Engine) (rng : ℕ → ℚ × ℚ) :
    ∃ obsL no lot, e.spawnRandomObstacles rng =
      { e with obstacles := obsL, nextOid := no, lastObstacleTime := lot } := by
  unfold Engine.spawnRandomObstacles Engine.createObstacle
  by_cases h : e.elapsedTime - e.lastObstacleTime > e.difficultySettings.spawnInterval
  · rw [if_pos h]
    exact ⟨_, _, _, rfl⟩
  · rw [if_neg h]
    exact ⟨e.obstacles, e.nextOid, e.lastObstacleTime, rfl⟩

/-- `_spawnMusicalObstacles` touches only obstacles, processed notes and the
spawn counter. -/
theorem spawnMusicalObstacles_keeps (e : Engine) (rng : ℕ → ℚ × ℚ) :
    ∃ obsL pns no, e.spawnMusicalObstacles rng =
      { e with obstacles := obsL, processedNotes := pns, nextOid := no } := by
  unfold Engine.spawnMusicalObstacles
  split
  · exact ⟨e.obstacles, e.processedNotes, e.nextOid, rfl⟩
  · rename_i t heqq
    obtain ⟨obs, ids, heq, -⟩ := spawnNoteLoop_spec rng t.notes e 0
    exact ⟨_, _, _, heq⟩

/-- `_updateDifficulty` touches only the speed and the obstacle list. -/
theorem updateDifficulty_keeps (e : Engine) :
    ∃ gs obsL, e.updateDifficulty = { e with gameSpeed := gs, obstacles := obsL } := by
  unfold Engine.updateDifficulty
  by_cases h1 : e.testMode = true
  · rw [if_pos h1]
    exact ⟨e.gameSpeed, e.obstacles, rfl⟩
  · rw [if_neg h1]
    by_cases h2 : e.gameSpeed < e.difficultySettings.maxSpeed
    · rw [if_pos h2]
      exact ⟨_, _, rfl⟩
    · rw [if_neg h2]
      exact ⟨e.gameSpeed, e.obstacles, rfl⟩

/-- `_checkTestCompletion` either does nothing, or (with the obstacle list
empty) stops the engine, marks the test complete and emits one completion
event. -/
theorem checkTestCompletion_cases (e : Engine) :
    e.checkTestCompletion = (e, []) ∨
    (e.obstacles.length = 0 ∧
     (e.checkTestCompletion).1 = { e with testCompleted := true, isRunning := false } ∧
     ∃ a b c d f g i, (e.checkTestCompletion).2 = [GameEvent.testComplete a b c d f g i]) := by
  cases hmt : e.musicalTest with
  | none => exact Or.inl (checkTestCompletion_no_test e hmt)
  | some t =>
    by_cases h : e.processedNotes.length = t.notes.length ∧ e.obstacles.length = 0
    · right
      refine ⟨h.2, ?_, ?_⟩
      · rw [checkTestCompletion_complete e t hmt h, hmt]
      · rw [checkTestCompletion_complete e t hmt h]
        exact ⟨_, _, _, _, _, _, _, rfl⟩
    · exact Or.inl (checkTestCompletion_not_complete e t hmt h)

theorem countP_eq_zero_of_none {p : GameEvent → Bool} {l : List GameEvent}
    (h : ∀ ev ∈ l, p ev = false) : l.countP p = 0 := by
  rw [List.countP_eq_zero]
  intro ev hev
  simp [h ev hev]

theorem spawnPhase_keeps (e : Engine) (rng : ℕ → ℚ × ℚ) :
    ∃ obsL pns no lot, e.spawnPhase rng =
      { e with obstacles := obsL, processedNotes := pns, nextOid := no,
               lastObstacleTime := lot } := by
  unfold Engine.spawnPhase
  by_cases htm : e.testMode = true
  · rw [if_pos htm]
    obtain ⟨a, b, c, hh⟩ := spawnMusicalObstacles_keeps e rng
    exact ⟨a, b, c, e.lastObstacleTime, by rw [hh]⟩
  · rw [if_neg htm]
    obtain ⟨a, b, c, hh⟩ := spawnRandomObstacles_spec e rng
    exact ⟨a, e.processedNotes, b, c, by rw [hh]⟩

theorem targetPhase_keeps (e : Engine) :
    ∃ g, (e.targetPhase).1 = { e with currentTargetGesture := g } ∧
      ∀ ev ∈ (e.targetPhase).2, ∃ a b, ev = GameEvent.noteChange a b := by
  unfold Engine.targetPhase
  by_cases htm : e.testMode = true
  · rw [if_pos htm]
    exact updateTargetGesture_spec e
  · rw [if_neg htm]
    exact ⟨e.currentTargetGesture, rfl, by simp⟩

theorem prunePhase_spec (e : Engine) :
    ∃ k : ℕ,
      (e.prunePhase).1.obstacles = e.obstacles.filter (fun o => !o.isOffScreen) ∧
      (e.prunePhase).1.obstacles.length + k = e.obstacles.length ∧
      (e.prunePhase).1.scoreManager.score = e.scoreManager.score + k ∧
      ∀ ev ∈ (e.prunePhase).2, ∃ a b c, ev = GameEvent.scoreUpdate a b c := by
  obtain ⟨k, h1, h2, h3, h4⟩ := pruneLoop_spec e.obstacles e.scoreManager
  refine ⟨k, ?_, ?_, ?_, ?_⟩
  · exact h1
  · exact h2
  · exact h3
  · exact h4

theorem completionPhase_cases (e : Engine) :
    e.completionPhase = (e, []) ∨
    (e.obstacles.length = 0 ∧
     (e.completionPhase).1 = { e with testCompleted := true, isRunning := false } ∧
     ∃ a b c d f g i, (e.completionPhase).2 = [GameEvent.testComplete a b c d f g i]) := by
  unfold Engine.completionPhase
  by_cases hg : e.testMode = true ∧ e.testCompleted = false
  · rw [if_pos hg]
    exact checkTestCompletion_cases e
  · rw [if_neg hg]
    exact Or.inl rfl

theorem collisionPhase_cases (e : Engine) :
    e.collisionPhase = (e, []) ∨
    (∃ hit, hit ∈ e.obstacles ∧ e.invulnerable = false ∧
      e.collisionPhase = e.handleCollision hit) := by
  unfold Engine.collisionPhase
  by_cases hinv : e.invulnerable = false
  · rw [if_pos hinv]
    cases hfind : checkPlayerObstacleCollision e.player e.obstacles with
    | none => exact Or.inl rfl
    | some hit =>
      right
      refine ⟨hit, ?_, hinv, rfl⟩
      rw [checkPlayerObstacleCollision_eq_find] at hfind
      exact List.mem_of_find?_eq_some hfind
  · rw [if_neg hinv]
    exact Or.inl rfl

theorem difficultyPhase_keeps (e : Engine) :
    ∃ gs obsL, e.difficultyPhase = { e with gameSpeed := gs, obstacles := obsL } := by
  unfold Engine.difficultyPhase
  by_cases htm : e.testMode = false
  · rw [if_pos htm]
    exact updateDifficulty_keeps e
  · rw [if_neg htm]
    exact ⟨e.gameSpeed, e.obstacles, rfl⟩

@[simp] theorem isGameOverEv_scoreUpdate (a b c : ℤ) :
    (GameEvent.scoreUpdate a b c).isGameOverEv = false := rfl

@[simp] theorem isGameOverEv_livesUpdate (a b : ℤ) :
    (GameEvent.livesUpdate a b).isGameOverEv = false := rfl

@[simp] theorem isGameOverEv_noteChange (a : Option String) (b : ℚ) :
    (GameEvent.noteChange a b).isGameOverEv = false := rfl

@[simp] theorem isGameOverEv_testComplete (nm : String) (b c d f g : ℤ) (i : ℚ) :
    (GameEvent.testComplete nm b c d f g i).isGameOverEv = false := rfl

@[simp] theorem isGameOverEv_gameOver (a b c : ℤ) :
    (GameEvent.gameOver a b c).isGameOverEv = true := rfl

@[simp] theorem isTestCompleteEv_scoreUpdate (a b c : ℤ) :
    (GameEvent.scoreUpdate a b c).isTestCompleteEv = false := rfl

@[simp] theorem isTestCompleteEv_livesUpdate (a b : ℤ) :
    (GameEvent.livesUpdate a b).isTestCompleteEv = false := rfl

@[simp] theorem isTestCompleteEv_noteChange (a : Option String) (b : ℚ) :
    (GameEvent.noteChange a b).isTestCompleteEv = false := rfl

@[simp] theorem isTestCompleteEv_testComplete (nm : String) (b c d f g : ℤ) (i : ℚ) :
    (GameEvent.testComplete nm b c d f g i).isTestCompleteEv = true := rfl

@[simp] theorem isTestCompleteEv_gameOver (a b c : ℤ) :
    (GameEvent.gameOver a b c).isTestCompleteEv = false := rfl

/-- One tick preserves the lives invariant; it emits at most one game-over
and at most one test-completion event, and if it emits either, the engine is
stopped afterwards. -/
theorem tick_livesInv (e : Engine) (now : ℚ) (rng : ℕ → ℚ × ℚ) (h : LivesInv e) :
    LivesInv (e.tick now rng).1 ∧
    ((e.tick now rng).1.isRunning = true → e.isRunning = true) ∧
    ((e.tick now rng).2.countP GameEvent.isGameOverEv ≤ 1) ∧
    ((e.tick now rng).2.countP GameEvent.isTestCompleteEv ≤ 1) ∧
    (∀ ev ∈ (e.tick now rng).2, (ev.isGameOverEv || ev.isTestCompleteEv) = true →
      (e.tick now rng).1.isRunning = false) := by
  obtain ⟨hml, hl0, hl3, hlr⟩ := h
  unfold Engine.tick
  by_cases hrun : (e.isRunning && !e.isPaused) = true
  case neg =>
    rw [if_neg hrun]
    exact ⟨⟨hml, hl0, hl3, hlr⟩, fun h => h, by simp, by simp, by simp⟩
  rw [if_pos hrun]
  simp only [Bool.and_eq_true, Bool.not_eq_true'] at hrun
  have hlives1 : 1 ≤ e.lives := hlr hrun.1
  set e0 : Engine := { e with elapsedTime := now } with he0
  set e1 : Engine := { e0 with frameCount := e0.frameCount + 1, player := e0.player.update }
    with he1
  set e2 : Engine := e1.spawnPhase rng with he2
  set e3 : Engine := { e2 with obstacles := e2.obstacles.map Obstacle.update } with he3
  set tg := e3.targetPhase with htgdef
  set pr := tg.1.prunePhase with hprdef
  set tc := pr.1.completionPhase with htcdef
  set col := tc.1.collisionPhase with hcoldef
  have hU : Engine.update e0 rng = (col.1.difficultyPhase, tg.2 ++ pr.2 ++ tc.2 ++ col.2) := rfl
  rw [hU]
  -- lives-related fields through the early phases
  obtain ⟨sa, sb, sc, sd, hsp⟩ := spawnPhase_keeps e1 rng
  obtain ⟨tgv, htg1, htgev⟩ := targetPhase_keeps e3
  have htg1lives : tg.1.lives = e.lives := by
    rw [htgdef, htg1, he3, he2, hsp, he1, he0]
  have htg1ml : tg.1.maxLives = e.maxLives := by
    rw [htgdef, htg1, he3, he2, hsp, he1, he0]
  have htg1run : tg.1.isRunning = e.isRunning := by
    rw [htgdef, htg1, he3, he2, hsp, he1, he0]
  have htg1inv : tg.1.invulnerable = e.invulnerable := by
    rw [htgdef, htg1, he3, he2, hsp, he1, he0]
  have hpr1lives : pr.1.lives = e.lives := htg1lives
  have hpr1ml : pr.1.maxLives = e.maxLives := htg1ml
  have hpr1run : pr.1.isRunning = e.isRunning := htg1run
  obtain ⟨dgs, dobs, hdiff⟩ := difficultyPhase_keeps col.1
  obtain ⟨k, hprob, hprlen, hprsc, hprev⟩ := prunePhase_spec tg.1
  -- case analysis on the completion phase
  rcases completionPhase_cases pr.1 with htcid | ⟨hoblen, htc1, ta, tb, tcc, td, tf, tgg, ti, htcev⟩
  · -- no completion event
    rw [← htcdef] at htcid
    have htc1eq : tc.1 = pr.1 := by rw [htcid]
    have htcev2 : tc.2 = [] := by rw [htcid]
    rcases collisionPhase_cases tc.1 with hcolid | ⟨hit, hhitmem, hinv, hcoleq⟩
    · -- no collision either
      rw [← hcoldef] at hcolid
      have hcol1 : col.1 = tc.1 := by rw [hcolid]
      have hcolev : col.2 = [] := by rw [hcolid]
      have hfr : col.1.difficultyPhase.isRunning = e.isRunning := by
        rw [hdiff, hcol1, htc1eq, hpr1run]
      have hfl : col.1.difficultyPhase.lives = e.lives := by
        rw [hdiff, hcol1, htc1eq, hpr1lives]
      have hfm : col.1.difficultyPhase.maxLives = e.maxLives := by
        rw [hdiff, hcol1, htc1eq, hpr1ml]
      refine ⟨⟨by rw [hfm, hml], by rw [hfl]; exact hl0, by rw [hfl]; exact hl3,
        fun _ => by rw [hfl]; exact hlives1⟩, fun _ => hrun.1, ?_, ?_, ?_⟩
      · rw [htcev2, hcolev]
        simp only [List.append_nil, List.countP_append]
        have z1 : tg.2.countP GameEvent.isGameOverEv = 0 := by
          apply countP_eq_zero_of_none
          intro ev hev
          obtain ⟨a, b, rfl⟩ := htgev ev hev
          simp
        have z2 : pr.2.countP GameEvent.isGameOverEv = 0 := by
          apply countP_eq_zero_of_none
          intro ev hev
          obtain ⟨a, b, c, rfl⟩ := hprev ev hev
          simp
        omega
      · rw [htcev2, hcolev]
        simp only [List.append_nil, List.countP_append]
        have z1 : tg.2.countP GameEvent.isTestCompleteEv = 0 := by
          apply countP_eq_zero_of_none
          intro ev hev
          obtain ⟨a, b, rfl⟩ := htgev ev hev
          simp
        have z2 : pr.2.countP GameEvent.isTestCompleteEv = 0 := by
          apply countP_eq_zero_of_none
          intro ev hev
          obtain ⟨a, b, c, rfl⟩ := hprev ev hev
          simp
        omega
      · intro ev hev hgo
        rw [htcev2, hcolev] at hev
        simp only [List.append_nil, List.mem_append] at hev
        rcases hev with hev | hev
        · obtain ⟨a, b, rfl⟩ := htgev ev hev
          simp at hgo
        · obtain ⟨a, b, c, rfl⟩ := hprev ev hev
          simp at hgo
    · -- a collision is processed
      rw [← hcoldef] at hcoleq
      have hsp13 := handleCollision_spec tc.1 hit
      have hclives : col.1.lives = e.lives - 1 := by
        rw [hcoleq, hsp13.2.1, htc1eq, hpr1lives]
      have hcml : col.1.maxLives = e.maxLives := by
        rw [hcoleq, hsp13.2.2.1, htc1eq, hpr1ml]
      have hfl : col.1.difficultyPhase.lives = e.lives - 1 := by rw [hdiff]; exact hclives
      have hfm : col.1.difficultyPhase.maxLives = e.maxLives := by rw [hdiff]; exact hcml
      have hfr : col.1.difficultyPhase.isRunning = col.1.isRunning := by rw [hdiff]
      have hz1 : tg.2.countP GameEvent.isGameOverEv = 0 := by
        apply countP_eq_zero_of_none
        intro ev hev
        obtain ⟨a, b, rfl⟩ := htgev ev hev
        simp
      have hz2 : pr.2.countP GameEvent.isGameOverEv = 0 := by
        apply countP_eq_zero_of_none
        intro ev hev
        obtain ⟨a, b, c, rfl⟩ := hprev ev hev
        simp
      have hz1t : tg.2.countP GameEvent.isTestCompleteEv = 0 := by
        apply countP_eq_zero_of_none
        intro ev hev
        obtain ⟨a, b, rfl⟩ := htgev ev hev
        simp
      have hz2t : pr.2.countP GameEvent.isTestCompleteEv = 0 := by
        apply countP_eq_zero_of_none
        intro ev hev
        obtain ⟨a, b, c, rfl⟩ := hprev ev hev
        simp
      have h14 := hsp13.2.2.2.2.2.2.2.2.2.2.2.2.2
      by_cases hko : tc.1.lives - 1 ≤ 0
      · rw [if_pos hko] at h14
        obtain ⟨hstop, hevs⟩ := h14
        have hcolrun : col.1.isRunning = false := by rw [hcoleq]; exact hstop
        have hcolev : col.2 = [GameEvent.livesUpdate (tc.1.lives - 1) tc.1.maxLives,
            GameEvent.gameOver tc.1.scoreManager.score 0 tc.1.scoreManager.maxCombo] := by
          rw [hcoleq]; exact hevs
        refine ⟨⟨by rw [hfm, hml], by rw [hfl]; omega, by rw [hfl]; omega,
          fun hc => by rw [hfr, hcolrun] at hc; exact absurd hc (by simp)⟩,
          fun _ => hrun.1, ?_, ?_, ?_⟩
        · rw [htcev2, hcolev]
          simp only [List.append_nil, List.countP_append, hz1, hz2]
          simp
        · rw [htcev2, hcolev]
          simp only [List.append_nil, List.countP_append, hz1t, hz2t]
          simp
        · intro ev hev hgo
          rw [hfr, hcolrun]
      · rw [if_neg hko] at h14
        have hcolrun : col.1.isRunning = e.isRunning := by
          rw [hcoleq, h14.1, htc1eq, hpr1run]
        have hcolev : col.2 = [GameEvent.livesUpdate (tc.1.lives - 1) tc.1.maxLives] := by
          rw [hcoleq]; exact h14.2.2
        have hlge : 1 ≤ e.lives - 1 := by
          rw [htc1eq, hpr1lives] at hko
          omega
        refine ⟨⟨by rw [hfm, hml], by rw [hfl]; omega, by rw [hfl]; omega,
          fun _ => by rw [hfl]; exact hlge⟩, fun _ => hrun.1, ?_, ?_, ?_⟩
        · rw [htcev2, hcolev]
          simp only [List.append_nil, List.countP_append, hz1, hz2]
          simp
        · rw [htcev2, hcolev]
          simp only [List.append_nil, List.countP_append, hz1t, hz2t]
          simp
        · intro ev hev hgo
          rw [htcev2] at hev
          simp only [List.append_nil, List.mem_append, hcolev] at hev
          rcases hev with (hev | hev) | hev
          · obtain ⟨a, b, rfl⟩ := htgev ev hev
            simp at hgo
          · obtain ⟨a, b, c, rfl⟩ := hprev ev hev
            simp at hgo
          · rcases List.mem_singleton.mp hev with rfl
            simp at hgo
  · -- test completion: the engine stops, the obstacle list is empty
    rw [← htcdef] at htc1 htcev
    have hprobs0 : pr.1.obstacles = ([] : List Obstacle) := List.length_eq_zero.mp hoblen
    have htcobs : tc.1.obstacles = ([] : List Obstacle) := by
      rw [htc1]
      exact hprobs0
    have htcrun : tc.1.isRunning = false := by rw [htc1]
    have htclives : tc.1.lives = e.lives := by rw [htc1]; exact hpr1lives
    have htcml : tc.1.maxLives = e.maxLives := by rw [htc1]; exact hpr1ml
    have hcolid : col = (tc.1, []) := by
      rcases collisionPhase_cases tc.1 with hcolid | ⟨hit, hhitmem, hinv, hcoleq⟩
      · rw [hcoldef, hcolid]
      · rw [htcobs] at hhitmem
        exact absurd hhitmem (List.not_mem_nil hit)
    have hcol1 : col.1 = tc.1 := by rw [hcolid]
    have hcolev : col.2 = ([] : List GameEvent) := by rw [hcolid]
    have hfr : col.1.difficultyPhase.isRunning = false := by rw [hdiff, hcol1]; exact htcrun
    have hfl : col.1.difficultyPhase.lives = e.lives := by rw [hdiff, hcol1]; exact htclives
    have hfm : col.1.difficultyPhase.maxLives = e.maxLives := by rw [hdiff, hcol1]; exact htcml
    have hz1 : tg.2.countP GameEvent.isGameOverEv = 0 := by
      apply countP_eq_zero_of_none
      intro ev hev
      obtain ⟨a, b, rfl⟩ := htgev ev hev
      simp
    have hz2 : pr.2.countP GameEvent.isGameOverEv = 0 := by
      apply countP_eq_zero_of_none
      intro ev hev
      obtain ⟨a, b, c, rfl⟩ := hprev ev hev
      simp
    have hz1t : tg.2.countP GameEvent.isTestCompleteEv = 0 := by
      apply countP_eq_zero_of_none
      intro ev hev
      obtain ⟨a, b, rfl⟩ := htgev ev hev
      simp
    have hz2t : pr.2.countP GameEvent.isTestCompleteEv = 0 := by
      apply countP_eq_zero_of_none
      intro ev hev
      obtain ⟨a, b, c, rfl⟩ := hprev ev hev
      simp
    refine ⟨⟨by rw [hfm, hml], by rw [hfl]; exact hl0, by rw [hfl]; exact hl3,
      fun hc => by rw [hfr] at hc; exact absurd hc (by simp)⟩, fun _ => hrun.1, ?_, ?_, ?_⟩
    · rw [htcev, hcolev]
      simp only [List.append_nil, List.countP_append, hz1, hz2]
      simp
    · rw [htcev, hcolev]
      simp only [List.append_nil, List.countP_append, hz1t, hz2t]
      simp
    · intro ev hev hgo
      rw [hfr]

/-- Every event either is a tick or leaves everything but the player, pause
flag and invulnerability flag untouched (and emits nothing). -/
theorem step_cases (e : Engine) (ev : Ev) :
    (∃ now rng, ev = Ev.tick now rng ∧ step e ev = e.tick now rng) ∨
    (∃ p ip inv, step e ev = ({ e with player := p, isPaused := ip, invulnerable := inv }, [])) := by
  cases ev with
  | tick now rng => exact Or.inl ⟨now, rng, rfl, rfl⟩
  | jump => exact Or.inr ⟨e.player.jump, e.isPaused, e.invulnerable, rfl⟩
  | invulnEnd => exact Or.inr ⟨e.player, e.isPaused, false, rfl⟩
  | pause => exact Or.inr ⟨e.player, true, e.invulnerable, rfl⟩
  | resume => exact Or.inr ⟨e.player, false, e.invulnerable, rfl⟩

/-- A stopped engine stays stopped and silent: no event of a run re-starts
it, emits anything, or touches the session outcome fields. -/
theorem runTrace_stopped (e : Engine) (evs : List Ev) (h : e.isRunning = false) :
    (runTrace e evs).2 = [] ∧
    (runTrace e evs).1.isRunning = false ∧
    (runTrace e evs).1.lives = e.lives ∧
    (runTrace e evs).1.maxLives = e.maxLives ∧
    (runTrace e evs).1.scoreManager = e.scoreManager ∧
    (runTrace e evs).1.processedNotes = e.processedNotes ∧
    (runTrace e evs).1.testMode = e.testMode ∧
    (runTrace e evs).1.gameSpeed = e.gameSpeed := by
  induction evs generalizing e with
  | nil => exact ⟨rfl, h, rfl, rfl, rfl, rfl, rfl, rfl⟩
  | cons ev rest ih =>
    have hstep : ∃ p ip inv,
        step e ev = ({ e with player := p, isPaused := ip, invulnerable := inv }, []) := by
      rcases step_cases e ev with ⟨now, rng, rfl, hs⟩ | hs
      · refine ⟨e.player, e.isPaused, e.invulnerable, ?_⟩
        rw [hs]
        unfold Engine.tick
        rw [if_neg (by simp [h])]
      · exact hs
    obtain ⟨p, ip, inv, hstep⟩ := hstep
    have hrt : runTrace e (ev :: rest) =
        ((runTrace (step e ev).1 rest).1, (step e ev).2 ++ (runTrace (step e ev).1 rest).2) := rfl
    rw [hrt, hstep]
    obtain ⟨i1, i2, i3, i4, i5, i6, i7, i8⟩ :=
      ih { e with player := p, isPaused := ip, invulnerable := inv } (by simpa using h)
    exact ⟨by simpa using i1, i2, i3, i4, i5, i6, i7, i8⟩

/-- Whole-run lives invariant and at-most-one game-over / test-completion. -/
theorem runTrace_livesInv (e : Engine) (evs : List Ev) (h : LivesInv e) :
    LivesInv (runTrace e evs).1 ∧
    (runTrace e evs).2.countP GameEvent.isGameOverEv ≤ 1 ∧
    (runTrace e evs).2.countP GameEvent.isTestCompleteEv ≤ 1 := by
  induction evs generalizing e with
  | nil => exact ⟨h, by simp [runTrace], by simp [runTrace]⟩
  | cons ev rest ih =>
    have hrt : runTrace e (ev :: rest) =
        ((runTrace (step e ev).1 rest).1, (step e ev).2 ++ (runTrace (step e ev).1 rest).2) := rfl
    rw [hrt]
    rcases step_cases e ev with ⟨now, rng, rfl, hs⟩ | ⟨p, ip, inv, hs⟩
    · rw [hs]
      obtain ⟨hInv2, hback, hgo1, htc1, hstop⟩ := tick_livesInv e now rng h
      by_cases hemit : ∃ ev2 ∈ (e.tick now rng).2, (ev2.isGameOverEv || ev2.isTestCompleteEv) = true
      · obtain ⟨ev2, hmem2, hgo2⟩ := hemit
        have hstopped := hstop ev2 hmem2 hgo2
        obtain ⟨hre, hrr, hrl, hrm, -, -, -, -⟩ := runTrace_stopped (e.tick now rng).1 rest hstopped
        obtain ⟨jml, jl0, jl3, jlr⟩ := hInv2
        refine ⟨⟨by rw [hrm, jml], by rw [hrl]; exact jl0, by rw [hrl]; exact jl3,
          fun hc => by rw [hrr] at hc; exact absurd hc (by simp)⟩, ?_, ?_⟩
        · rw [hre, List.append_nil]
          exact hgo1
        · rw [hre, List.append_nil]
          exact htc1
      · push_neg at hemit
        have hz1 : (e.tick now rng).2.countP GameEvent.isGameOverEv = 0 := by
          apply countP_eq_zero_of_none
          intro ev2 hev2
          have := hemit ev2 hev2
          simp only [ne_eq, Bool.or_eq_true, not_or, Bool.not_eq_true] at this
          exact this.1
        have hz2 : (e.tick now rng).2.countP GameEvent.isTestCompleteEv = 0 := by
          apply countP_eq_zero_of_none
          intro ev2 hev2
          have := hemit ev2 hev2
          simp only [ne_eq, Bool.or_eq_true, not_or, Bool.not_eq_true] at this
          exact this.2
        obtain ⟨ihInv, ihgo, ihtc⟩ := ih (e.tick now rng).1 hInv2
        exact ⟨ihInv, by rw [List.countP_append, hz1]; omega,
          by rw [List.countP_append, hz2]; omega⟩
    · rw [hs]
      obtain ⟨hml, hl0, hl3, hlr⟩ := h
      obtain ⟨ihInv, ihgo, ihtc⟩ := ih { e with player := p, isPaused := ip, invulnerable := inv }
        ⟨hml, hl0, hl3, hlr⟩
      exact ⟨ihInv, by simpa using ihgo, by simpa using ihtc⟩

/-- A fresh session state satisfies the lives invariant. -/
theorem session_livesInv (difficulty : String) (hs : ℤ) (mt : Option MusicalTest) :
    LivesInv (session difficulty hs mt) :=
  ⟨rfl, by norm_num [session, Engine.init, Engine.setMusicalTest, Engine.start],
   by norm_num [session, Engine.init, Engine.setMusicalTest, Engine.start],
   fun _ => by norm_num [session, Engine.init, Engine.setMusicalTest, Engine.start]⟩

/-! ### Claim C4 -/

/-- C4: starting from any fresh session, `lives` never goes below 0 over any
event sequence, at most one game-over is ever notified, and processing a
collision removes exactly the hit obstacle (by identity), decrements `lives`
by 1, resets the combo to 0 without touching the score, and then either
(`lives ≤ 0`) halts the loop and fires exactly one `onGameOver` with the
final score/combo/maxCombo, or leaves the engine invulnerable. -/
theorem collision_lives_state_machine (difficulty : String) (hs : ℤ)
    (mt : Option MusicalTest) (evs : List Ev) (hit : Obstacle) :
    0 ≤ (runTrace (session difficulty hs mt) evs).1.lives ∧
    ((runTrace (session difficulty hs mt) evs).2.countP GameEvent.isGameOverEv ≤ 1) ∧
    ((runTrace (session difficulty hs mt) evs).1.handleCollision hit).1.obstacles =
      (runTrace (session difficulty hs mt) evs).1.obstacles.filter
        (fun o => decide (o.oid ≠ hit.oid)) ∧
    hit ∉ ((runTrace (session difficulty hs mt) evs).1.handleCollision hit).1.obstacles ∧
    ((runTrace (session difficulty hs mt) evs).1.handleCollision hit).1.lives =
      (runTrace (session difficulty hs mt) evs).1.lives - 1 ∧
    ((runTrace (session difficulty hs mt) evs).1.handleCollision hit).1.scoreManager.combo = 0 ∧
    ((runTrace (session difficulty hs mt) evs).1.handleCollision hit).1.scoreManager.score =
      (runTrace (session difficulty hs mt) evs).1.scoreManager.score ∧
    (if (runTrace (session difficulty hs mt) evs).1.lives - 1 ≤ 0 then
      ((runTrace (session difficulty hs mt) evs).1.handleCollision hit).1.isRunning = false ∧
      ((runTrace (session difficulty hs mt) evs).1.handleCollision hit).2 =
        [GameEvent.livesUpdate ((runTrace (session difficulty hs mt) evs).1.lives - 1)
           (runTrace (session difficulty hs mt) evs).1.maxLives,
         GameEvent.gameOver (runTrace (session difficulty hs mt) evs).1.scoreManager.score 0
           (runTrace (session difficulty hs mt) evs).1.scoreManager.maxCombo]
    else
      ((runTrace (session difficulty hs mt) evs).1.handleCollision hit).1.invulnerable = true ∧
      ((runTrace (session difficulty hs mt) evs).1.handleCollision hit).2 =
        [GameEvent.livesUpdate ((runTrace (session difficulty hs mt) evs).1.lives - 1)
           (runTrace (session difficulty hs mt) evs).1.maxLives]) := by
  obtain ⟨hInv, hgo, -⟩ :=
    runTrace_livesInv (session difficulty hs mt) evs (session_livesInv difficulty hs mt)
  have hhc := handleCollision_spec (runTrace (session difficulty hs mt) evs).1 hit
  obtain ⟨hobs, hlv, hmx, hsm, -, -, -, -, -, -, -, -, -, hbr⟩ := hhc
  refine ⟨hInv.2.1, hgo, hobs, ?_, hlv, by rw [hsm]; rfl, by rw [hsm]; rfl, ?_⟩
  · intro hmem
    rw [hobs] at hmem
    have := (List.mem_filter.mp hmem).2
    simp at this
  · by_cases hko : (runTrace (session difficulty hs mt) evs).1.lives - 1 ≤ 0
    · rw [if_pos hko]
      rw [if_pos hko] at hbr
      exact hbr
    · rw [if_neg hko]
      rw [if_neg hko] at hbr
      exact ⟨hbr.2.1, hbr.2.2⟩

/-! ### Claim C5 -/

theorem tick_speed (e : Engine) (now : ℚ) (rng : ℕ → ℚ × ℚ) (htm : e.testMode = true) :
    (e.tick now rng).1.gameSpeed = e.gameSpeed ∧ (e.tick now rng).1.testMode = true := by
  unfold Engine.tick
  by_cases hrun : (e.isRunning && !e.isPaused) = true
  case neg =>
    rw [if_neg hrun]
    exact ⟨rfl, htm⟩
  rw [if_pos hrun]
  set e0 : Engine := { e with elapsedTime := now } with he0
  set e1 : Engine := { e0 with frameCount := e0.frameCount + 1, player := e0.player.update }
    with he1
  set e2 : Engine := e1.spawnPhase rng with he2
  set e3 : Engine := { e2 with obstacles := e2.obstacles.map Obstacle.update } with he3
  set tg := e3.targetPhase with htgdef
  set pr := tg.1.prunePhase with hprdef
  set tc := pr.1.completionPhase with htcdef
  set col := tc.1.collisionPhase with hcoldef
  have hU : Engine.update e0 rng = (col.1.difficultyPhase, tg.2 ++ pr.2 ++ tc.2 ++ col.2) := rfl
  rw [hU]
  obtain ⟨sa, sb, sc, sd, hsp⟩ := spawnPhase_keeps e1 rng
  obtain ⟨tgv, htg1, -⟩ := targetPhase_keeps e3
  have htg1gs : tg.1.gameSpeed = e.gameSpeed := by
    rw [htgdef, htg1, he3, he2, hsp, he1, he0]
  have htg1tm : tg.1.testMode = true := by
    rw [htgdef, htg1, he3, he2, hsp, he1, he0]
    exact htm
  have hpr1gs : pr.1.gameSpeed = e.gameSpeed := htg1gs
  have hpr1tm : pr.1.testMode = true := htg1tm
  have htcf : tc.1.gameSpeed = e.gameSpeed ∧ tc.1.testMode = true := by
    rcases completionPhase_cases pr.1 with hid | ⟨-, h1, -⟩
    · rw [htcdef, hid]
      exact ⟨hpr1gs, hpr1tm⟩
    · rw [← htcdef] at h1
      rw [h1]
      exact ⟨hpr1gs, hpr1tm⟩
  have hcolf : col.1.gameSpeed = e.gameSpeed ∧ col.1.testMode = true := by
    rcases collisionPhase_cases tc.1 with hid | ⟨hit2, -, -, hceq⟩
    · rw [hcoldef, hid]
      exact htcf
    · have hhc := handleCollision_spec tc.1 hit2
      rw [hcoldef, hceq]
      exact ⟨by rw [hhc.2.2.2.2.2.2.2.2.1]; exact htcf.1,
             by rw [hhc.2.2.2.2.2.2.1]; exact htcf.2⟩
  constructor
  · unfold Engine.difficultyPhase
    rw [if_neg (by simp [hcolf.2])]
    exact hcolf.1
  · unfold Engine.difficultyPhase
    rw [if_neg (by simp [hcolf.2])]
    exact hcolf.2

theorem runTrace_speed (e : Engine) (evs : List Ev) (htm : e.testMode = true) :
    (runTrace e evs).1.testMode = true ∧ (runTrace e evs).1.gameSpeed = e.gameSpeed := by
  induction evs generalizing e with
  | nil => exact ⟨htm, rfl⟩
  | cons ev rest ih =>
    have hrt : runTrace e (ev :: rest) =
        ((runTrace (step e ev).1 rest).1, (step e ev).2 ++ (runTrace (step e ev).1 rest).2) := rfl
    rw [hrt]
    rcases step_cases e ev with ⟨now, rng, rfl, hs⟩ | ⟨p, ip, inv, hs⟩
    · rw [hs]
      obtain ⟨hgs, htm2⟩ := tick_speed e now rng htm
      obtain ⟨ihtm, ihgs⟩ := ih (e.tick now rng).1 htm2
      exact ⟨ihtm, by rw [ihgs, hgs]⟩
    · rw [hs]
      obtain ⟨ihtm, ihgs⟩ := ih { e with player := p, isPaused := ip, invulnerable := inv }
        (by simpa using htm)
      exact ⟨ihtm, by simpa using ihgs⟩

/-- C5: in a test-mode session the game speed is frozen at the difficulty
preset's base speed: it equals that base speed after every event sequence,
and no single tick of an engine in test mode ever changes `gameSpeed`. -/
theorem testmode_speed_frozen (difficulty : String) (hs : ℤ) (t : MusicalTest)
    (evs : List Ev) :
    (runTrace (session difficulty hs (some t)) evs).1.gameSpeed =
      (getDifficultySettings difficulty).speed ∧
    (runTrace (session difficulty hs (some t)) evs).1.testMode = true ∧
    (∀ e2 : Engine, ∀ now : ℚ, ∀ rng : ℕ → ℚ × ℚ, e2.testMode = true →
      (e2.tick now rng).1.gameSpeed = e2.gameSpeed) := by
  obtain ⟨htm, hgs⟩ := runTrace_speed (session difficulty hs (some t)) evs rfl
  exact ⟨hgs, htm, fun e2 now rng htm2 => (tick_speed e2 now rng htm2).1⟩

/-- C5 witness: a concrete test session ticked once keeps the medium preset's
base speed 5. -/
theorem testmode_speed_frozen_witness :
    (session "medium" 0 (some { name := "w", description := "", notes := [] })).testMode
      = true ∧
    (runTrace (session "medium" 0 (some { name := "w", description := "", notes := [] }))
        [Ev.tick 0 (fun _ => (0, 0))]).1.gameSpeed =
      (getDifficultySettings "medium").speed := by
  refine ⟨rfl, ?_⟩
  exact (testmode_speed_frozen "medium" 0 { name := "w", description := "", notes := [] }
    [Ev.tick 0 (fun _ => (0, 0))]).1

theorem jsRound_bounds (q : ℚ) (h0 : 0 ≤ q) (h1 : q ≤ 100) :
    0 ≤ jsRound q ∧ jsRound q ≤ 100 := by
  unfold jsRound
  constructor
  · rw [Rat.le_floor]
    push_cast
    linarith
  · by_contra hcon
    push_neg at hcon
    have h2 : (101 : ℤ) ≤ (q + 1/2).floor := hcon
    rw [Rat.le_floor] at h2
    push_cast at h2
    linarith

@[simp] theorem eventAccOK_scoreUpdate (a b c : ℤ) :
    eventAccOK (GameEvent.scoreUpdate a b c) = true := rfl

@[simp] theorem eventAccOK_livesUpdate (a b : ℤ) :
    eventAccOK (GameEvent.livesUpdate a b) = true := rfl

@[simp] theorem eventAccOK_noteChange (a : Option String) (b : ℚ) :
    eventAccOK (GameEvent.noteChange a b) = true := rfl

@[simp] theorem eventAccOK_gameOver (a b c : ℤ) :
    eventAccOK (GameEvent.gameOver a b c) = true := rfl

theorem jsRound_eighty : jsRound ((((8 : ℤ) : ℤ) : ℚ) / (((10 : ℤ) : ℤ) : ℚ) * 100) = 80 := by
  decide!

theorem eventAccOK_testComplete (nm : String) (sc mc : ℤ) (dur : ℚ) (L N : ℤ)
    (hL0 : 0 ≤ L) (hhit0 : 0 ≤ N - L) :
    eventAccOK (GameEvent.testComplete nm sc mc
      (if 0 < N then jsRound ((((N - L) : ℤ) : ℚ) / ((N : ℤ) : ℚ) * 100) else 100)
      (N - L) N dur) = true := by
  have hhitN : N - L ≤ N := by omega
  have hacc : 0 ≤ (if 0 < N then jsRound ((((N - L) : ℤ) : ℚ) / ((N : ℤ) : ℚ) * 100) else 100) ∧
      (if 0 < N then jsRound ((((N - L) : ℤ) : ℚ) / ((N : ℤ) : ℚ) * 100) else 100) ≤ 100 := by
    by_cases hN : 0 < N
    · rw [if_pos hN]
      apply jsRound_bounds
      · apply mul_nonneg _ (by norm_num)
        apply div_nonneg
        · exact_mod_cast hhit0
        · exact_mod_cast le_of_lt hN
      · have hd : (((N - L) : ℤ) : ℚ) / ((N : ℤ) : ℚ) ≤ 1 := by
          rw [div_le_one (by exact_mod_cast hN)]
          exact_mod_cast hhitN
        nlinarith
    · rw [if_neg hN]
      norm_num
  unfold eventAccOK
  simp only [Bool.and_eq_true, Bool.or_eq_true, Bool.not_eq_true', Bool.and_eq_false_iff,
    decide_eq_true_eq, decide_eq_false_iff_not]
  refine ⟨⟨⟨⟨⟨hacc.1, hacc.2⟩, hhit0⟩, hhitN⟩, trivial⟩, ?_⟩
  by_cases h10 : N = 10 ∧ N - L = 8
  · right
    obtain ⟨rfl, h8⟩ := h10
    rw [h8]
    rw [if_pos (by norm_num)]
    exact jsRound_eighty
  · left
    rcases not_and_or.mp h10 with hh | hh
    · exact Or.inl hh
    · exact Or.inr hh

/-- Removing one obstacle by its spawn id removes exactly one element when
spawn ids are distinct. -/
theorem length_filter_oid (l : List Obstacle) (hit : Obstacle)
    (hnd : (l.map Obstacle.oid).Nodup) (hm : hit ∈ l) :
    (l.filter (fun o => decide (o.oid ≠ hit.oid))).length + 1 = l.length := by
  induction l with
  | nil => cases hm
  | cons o rest ih =>
    rw [List.map_cons, List.nodup_cons] at hnd
    rcases List.mem_cons.mp hm with rfl | hm2
    · rw [List.filter_cons, if_neg (by simp)]
      have hall : ∀ o2 ∈ rest, (fun o => decide (o.oid ≠ hit.oid)) o2 = true := by
        intro o2 h2
        simp only [decide_eq_true_eq]
        intro heq2
        exact hnd.1 (by rw [← heq2]; exact List.mem_map_of_mem _ h2)
      rw [List.filter_eq_self.mpr hall]
      simp
    · have hoid_ne : o.oid ≠ hit.oid := by
        intro heq2
        exact hnd.1 (by rw [heq2]; exact List.mem_map_of_mem _ hm2)
      rw [List.filter_cons, if_pos (by simpa using hoid_ne)]
      have := ih hnd.2 hm2
      simp only [List.length_cons]
      omega

theorem map_oid_update (l : List Obstacle) :
    (l.map Obstacle.update).map Obstacle.oid = l.map Obstacle.oid := by
  induction l with
  | nil => rfl
  | cons o rest ih => simp only [List.map_cons, ih]; rfl

/-! TInv transport along the individual phases. -/

theorem TInv.frame (dif : String) (t : MusicalTest) (e : Engine) (h : TInv dif t e)
    (q : ℚ) (n : ℤ) (p : Player) :
    TInv dif t { e with elapsedTime := q, frameCount := n, player := p } :=
  ⟨h.tm, h.mt, h.ml, h.lpos, h.lub, h.lrun, h.gs, h.snn, h.acct, h.pnd, h.psub, h.noid,
   h.obnd, h.oblt⟩

theorem TInv.ctg (dif : String) (t : MusicalTest) (e : Engine) (h : TInv dif t e)
    (g : Option String) :
    TInv dif t { e with currentTargetGesture := g } :=
  ⟨h.tm, h.mt, h.ml, h.lpos, h.lub, h.lrun, h.gs, h.snn, h.acct, h.pnd, h.psub, h.noid,
   h.obnd, h.oblt⟩

theorem TInv.stop (dif : String) (t : MusicalTest) (e : Engine) (h : TInv dif t e) (b : Bool) :
    TInv dif t { e with testCompleted := b, isRunning := false } :=
  ⟨h.tm, h.mt, h.ml, h.lpos, h.lub, fun hc => absurd hc (by simp), h.gs, h.snn, h.acct,
   h.pnd, h.psub, h.noid, h.obnd, h.oblt⟩

theorem TInv.spawn (dif : String) (t : MusicalTest) (e : Engine) (h : TInv dif t e)
    (obs : List Obstacle) (ids : List String)
    (hlen : obs.length = ids.length)
    (hnd : ids.Nodup)
    (hmem : ∀ id ∈ ids, id ∈ t.notes.map noteId ∧ id ∉ e.processedNotes)
    (hoid : ∀ o ∈ obs, e.nextOid ≤ o.oid ∧ o.oid < e.nextOid + ids.length)
    (hoidnd : (obs.map Obstacle.oid).Nodup) :
    TInv dif t { e with obstacles := e.obstacles ++ obs
                        processedNotes := e.processedNotes ++ ids
                        nextOid := e.nextOid + ids.length } := by
  refine ⟨h.tm, h.mt, h.ml, h.lpos, h.lub, h.lrun, h.gs, h.snn, ?_, ?_, ?_, ?_, ?_, ?_⟩
  · show (3 - e.lives) + e.scoreManager.score + ((e.obstacles ++ obs).length : ℤ) =
      ((e.processedNotes ++ ids).length : ℤ)
    rw [List.length_append, List.length_append]
    have := h.acct
    push_cast at this ⊢
    rw [hlen]
    linarith
  · show (e.processedNotes ++ ids).Nodup
    refine h.pnd.append hnd ?_
    intro a ha hb
    exact (hmem a hb).2 ha
  · show ∀ id ∈ e.processedNotes ++ ids, id ∈ t.notes.map noteId
    intro id hid
    rcases List.mem_append.mp hid with hl | hr
    · exact h.psub id hl
    · exact (hmem id hr).1
  · show e.nextOid + ids.length = (e.processedNotes ++ ids).length
    rw [List.length_append, h.noid]
  · show ((e.obstacles ++ obs).map Obstacle.oid).Nodup
    rw [List.map_append]
    refine h.obnd.append hoidnd ?_
    intro a ha hb
    rw [List.mem_map] at ha hb
    obtain ⟨o1, ho1, rfl⟩ := ha
    obtain ⟨o2, ho2, heq2⟩ := hb
    have h1 := h.oblt o1 ho1
    have h2 := (hoid o2 ho2).1
    omega
  · show ∀ o ∈ e.obstacles ++ obs, o.oid < e.nextOid + ids.length
    intro o ho
    rcases List.mem_append.mp ho with hl | hr
    · have := h.oblt o hl
      omega
    · exact (hoid o hr).2

theorem TInv.mapUpdate (dif : String) (t : MusicalTest) (e : Engine) (h : TInv dif t e) :
    TInv dif t { e with obstacles := e.obstacles.map Obstacle.update } := by
  refine ⟨h.tm, h.mt, h.ml, h.lpos, h.lub, h.lrun, h.gs, h.snn, ?_, h.pnd, h.psub, h.noid,
    ?_, ?_⟩
  · show (3 - e.lives) + e.scoreManager.score + ((e.obstacles.map Obstacle.update).length : ℤ) =
      (e.processedNotes.length : ℤ)
    rw [List.length_map]
    exact h.acct
  · show ((e.obstacles.map Obstacle.update).map Obstacle.oid).Nodup
    rw [map_oid_update]
    exact h.obnd
  · show ∀ o ∈ e.obstacles.map Obstacle.update, o.oid < e.nextOid
    intro o ho
    rw [List.mem_map] at ho
    obtain ⟨o2, ho2, rfl⟩ := ho
    exact h.oblt o2 ho2

theorem TInv.prune (dif : String) (t : MusicalTest) (e : Engine) (h : TInv dif t e)
    (sm : ScoreManager) (k : ℕ)
    (hsm : sm.score = e.scoreManager.score + k)
    (hlen : (e.obstacles.filter (fun o => !o.isOffScreen)).length + k = e.obstacles.length) :
    TInv dif t { e with scoreManager := sm
                        obstacles := e.obstacles.filter (fun o => !o.isOffScreen) } := by
  refine ⟨h.tm, h.mt, h.ml, h.lpos, h.lub, h.lrun, h.gs, ?_, ?_, h.pnd, h.psub, h.noid,
    ?_, ?_⟩
  · show 0 ≤ sm.score
    rw [hsm]
    have := h.snn
    positivity
  · show (3 - e.lives) + sm.score +
      ((e.obstacles.filter (fun o => !o.isOffScreen)).length : ℤ) =
      (e.processedNotes.length : ℤ)
    rw [hsm]
    have hz := h.acct
    have hcast : ((e.obstacles.filter (fun o => !o.isOffScreen)).length : ℤ) + (k : ℤ) =
        (e.obstacles.length : ℤ) := by exact_mod_cast hlen
    linarith
  · show ((e.obstacles.filter (fun o => !o.isOffScreen)).map Obstacle.oid).Nodup
    exact h.obnd.sublist ((List.filter_sublist _).map Obstacle.oid)
  · show ∀ o ∈ e.obstacles.filter (fun o => !o.isOffScreen), o.oid < e.nextOid
    intro o ho
    exact h.oblt o (List.mem_of_mem_filter ho)

theorem TInv.collision (dif : String) (t : MusicalTest) (e : Engine) (h : TInv dif t e)
    (hit : Obstacle) (hm : hit ∈ e.obstacles) (hrun : e.isRunning = true) :
    TInv dif t (e.handleCollision hit).1 := by
  obtain ⟨hobs, hlv, hmx, hsm, hpn, hno, htm, hmt, hgs, hds, htc, hip, hel, hbr⟩ :=
    handleCollision_spec e hit
  have hl1 : 1 ≤ e.lives := h.lrun hrun
  have hlenf : ((e.handleCollision hit).1.obstacles.length : ℤ) + 1 =
      (e.obstacles.length : ℤ) := by
    rw [hobs]
    exact_mod_cast length_filter_oid e.obstacles hit h.obnd hm
  refine ⟨by rw [htm]; exact h.tm, by rw [hmt]; exact h.mt, by rw [hmx]; exact h.ml,
    by rw [hlv]; omega, by rw [hlv]; have := h.lub; omega, ?_,
    by rw [hgs]; exact h.gs, by rw [hsm]; exact h.snn, ?_, by rw [hpn]; exact h.pnd,
    ?_, by rw [hno, hpn]; exact h.noid, ?_, ?_⟩
  · intro hc
    by_cases hko : e.lives - 1 ≤ 0
    · rw [if_pos hko] at hbr
      rw [hbr.1] at hc
      exact absurd hc (by simp)
    · rw [hlv]
      omega
  · rw [hlv, hsm, hpn]
    show (3 - (e.lives - 1)) + e.scoreManager.resetCombo.score +
      ((e.handleCollision hit).1.obstacles.length : ℤ) = (e.processedNotes.length : ℤ)
    have hsc : e.scoreManager.resetCombo.score = e.scoreManager.score := rfl
    rw [hsc]
    have := h.acct
    linarith
  · rw [hpn]
    exact h.psub
  · rw [hobs]
    exact h.obnd.sublist ((List.filter_sublist _).map Obstacle.oid)
  · rw [hobs, hno]
    intro o ho
    exact h.oblt o (List.mem_of_mem_filter ho)

/-- One tick of a test session: the invariant is preserved, every emitted
event has a sane completion payload, the processed-note set only grows (each
new id justified by the tick's clock against the frozen lead time, and every
due note processed when the tick executes), and any emitted completion event
reports `totalNotes` = the test length and `notesHit` = `totalNotes` minus
the lives lost as of the stopped final state. -/
theorem tick_tinv (dif : String) (t : MusicalTest) (e : Engine) (now : ℚ) (rng : ℕ → ℚ × ℚ)
    (h : TInv dif t e) :
    TInv dif t (e.tick now rng).1 ∧
    (∀ ev ∈ (e.tick now rng).2, eventAccOK ev = true) ∧
    (∃ ids, (e.tick now rng).1.processedNotes = e.processedNotes ++ ids ∧
      (∀ id ∈ ids, ∃ n ∈ t.notes, noteId n = id ∧ now ≥ n.time - leadFor dif) ∧
      (e.isRunning = true → e.isPaused = false →
        ∀ n ∈ t.notes, now ≥ n.time - leadFor dif →
          noteId n ∈ (e.tick now rng).1.processedNotes)) ∧
    (∀ nm sc mc acc hit tot dur,
      GameEvent.testComplete nm sc mc acc hit tot dur ∈ (e.tick now rng).2 →
        tot = (t.notes.length : ℤ) ∧
        hit = tot - ((e.tick now rng).1.maxLives - (e.tick now rng).1.lives) ∧
        (e.tick now rng).1.isRunning = false) := by
  unfold Engine.tick
  by_cases hrun : (e.isRunning && !e.isPaused) = true
  case neg =>
    rw [if_neg hrun]
    refine ⟨h, by simp, ⟨[], by simp, by simp, ?_⟩, by simp⟩
    intro hr hp
    exact absurd (by simp [hr, hp] : (e.isRunning && !e.isPaused) = true) hrun
  case pos =>
  rw [if_pos hrun]
  simp only [Bool.and_eq_true, Bool.not_eq_true'] at hrun
  set e0 : Engine := { e with elapsedTime := now } with he0
  set e1 : Engine := { e0 with frameCount := e0.frameCount + 1, player := e0.player.update }
    with he1
  set e2 : Engine := e1.spawnPhase rng with he2
  set e3 : Engine := { e2 with obstacles := e2.obstacles.map Obstacle.update } with he3
  set tg := e3.targetPhase with htgdef
  set pr := tg.1.prunePhase with hprdef
  set tc := pr.1.completionPhase with htcdef
  set col := tc.1.collisionPhase with hcoldef
  have hU : Engine.update e0 rng = (col.1.difficultyPhase, tg.2 ++ pr.2 ++ tc.2 ++ col.2) := rfl
  rw [hU]
  have h1 : TInv dif t e1 := TInv.frame dif t e h now (e0.frameCount + 1) (e0.player.update)
  have hsp2 : e2 = Engine.spawnNoteLoop rng e1 t.notes 0 := by
    rw [he2]
    unfold Engine.spawnPhase Engine.spawnMusicalObstacles
    rw [if_pos h1.tm]
    rw [show e1.musicalTest = some t from h1.mt]
  obtain ⟨obs, ids, hloop, hlen, hnd, hmem, hoid, hoidnd, hcompl⟩ :=
    spawnNoteLoop_spec rng t.notes e1 0
  have hE2 : e2 = { e1 with obstacles := e1.obstacles ++ obs
                            processedNotes := e1.processedNotes ++ ids
                            nextOid := e1.nextOid + ids.length } := by
    rw [hsp2, hloop]
  have hmem2 : ∀ id ∈ ids, id ∈ t.notes.map noteId ∧ id ∉ e1.processedNotes := by
    intro id hid
    obtain ⟨hfresh, n, hn, hneq, -⟩ := hmem id hid
    exact ⟨hneq ▸ List.mem_map_of_mem noteId hn, hfresh⟩
  have h2 : TInv dif t e2 := by
    rw [hE2]
    exact TInv.spawn dif t e1 h1 obs ids hlen hnd hmem2 hoid hoidnd
  have hlead : e1.spawnLeadTime = leadFor dif := by
    unfold Engine.spawnLeadTime leadFor
    rw [show e1.gameSpeed = (getDifficultySettings dif).speed from h1.gs]
  have hidsJ : ∀ id ∈ ids, ∃ n ∈ t.notes, noteId n = id ∧ now ≥ n.time - leadFor dif := by
    intro id hid
    obtain ⟨-, n, hn, hneq, hc⟩ := hmem id hid
    refine ⟨n, hn, hneq, ?_⟩
    rw [← hlead]
    exact hc
  have h3 : TInv dif t e3 := by
    rw [he3]
    exact TInv.mapUpdate dif t e2 h2
  obtain ⟨tgv, htg1, htgev⟩ := targetPhase_keeps e3
  have h4 : TInv dif t tg.1 := by
    rw [htgdef, htg1]
    exact TInv.ctg dif t e3 h3 tgv
  obtain ⟨k, hprob, hprlen, hprsc, hprev⟩ := prunePhase_spec tg.1
  have hE5 : pr.1 = { tg.1 with
      scoreManager := (pruneLoop tg.1.scoreManager tg.1.obstacles).1
      obstacles := tg.1.obstacles.filter (fun o => !o.isOffScreen) } := by
    have h0 : pr.1 = { tg.1 with
        scoreManager := (pruneLoop tg.1.scoreManager tg.1.obstacles).1
        obstacles := (pruneLoop tg.1.scoreManager tg.1.obstacles).2.1 } := rfl
    rw [h0]
    rw [show (pruneLoop tg.1.scoreManager tg.1.obstacles).2.1 =
      tg.1.obstacles.filter (fun o => !o.isOffScreen) from hprob]
  have hlen5 : (tg.1.obstacles.filter (fun o => !o.isOffScreen)).length + k =
      tg.1.obstacles.length := by
    have := hprlen
    rw [show pr.1.obstacles = tg.1.obstacles.filter (fun o => !o.isOffScreen) from hprob]
      at this
    exact this
  have h5 : TInv dif t pr.1 := by
    rw [hE5]
    exact TInv.prune dif t tg.1 h4 _ k hprsc hlen5
  -- processed notes are stable after the spawn phase
  have hpn5 : pr.1.processedNotes = e.processedNotes ++ ids := by
    rw [hE5, htg1, he3, hE2, he1, he0]
  have hrun5 : pr.1.isRunning = true := by
    rw [hE5, htg1, he3, hE2, he1, he0]
    exact hrun.1
  have hlives5 : pr.1.lives = e.lives := by
    rw [hE5, htg1, he3, hE2, he1, he0]
  have hml5 : pr.1.maxLives = e.maxLives := by
    rw [hE5, htg1, he3, hE2, he1, he0]
  have htgaccok : ∀ ev ∈ tg.2, eventAccOK ev = true := by
    intro ev hev
    obtain ⟨a, b, rfl⟩ := htgev ev hev
    simp
  have hpraccok : ∀ ev ∈ pr.2, eventAccOK ev = true := by
    intro ev hev
    obtain ⟨a, b, c, rfl⟩ := hprev ev hev
    simp
  have htgnotc : ∀ ev ∈ tg.2, ∀ nm sc mc acc hit tot dur,
      ev = GameEvent.testComplete nm sc mc acc hit tot dur → False := by
    intro ev hev nm sc mc acc hit tot dur hev2
    obtain ⟨a, b, rfl⟩ := htgev ev hev
    cases hev2
  have hprnotc : ∀ ev ∈ pr.2, ∀ nm sc mc acc hit tot dur,
      ev = GameEvent.testComplete nm sc mc acc hit tot dur → False := by
    intro ev hev nm sc mc acc hit tot dur hev2
    obtain ⟨a, b, c, rfl⟩ := hprev ev hev
    cases hev2
  by_cases hguard : pr.1.testMode = true ∧ pr.1.testCompleted = false
  case neg =>
    -- completion not even checked
    have htcid : tc = (pr.1, []) := by
      rw [htcdef]
      unfold Engine.completionPhase
      rw [if_neg hguard]
    rcases collisionPhase_cases tc.1 with hcolid | ⟨hit, hhitmem, hinv, hcoleq⟩
    · have hcolid2 : col = (tc.1, []) := by rw [hcoldef, hcolid]
      have hc1 : col.1 = pr.1 := by rw [hcolid2, htcid]
      have hfin : col.1.difficultyPhase = col.1 := by
        unfold Engine.difficultyPhase
        rw [if_neg (by rw [hc1]; simp [h5.tm])]
      refine ⟨by rw [hfin, hc1]; exact h5, ?_, ⟨ids, ?_, hidsJ, ?_⟩, ?_⟩
      · intro ev hev
        rw [htcid, hcolid2] at hev
        simp only [List.append_nil, List.mem_append] at hev
        rcases hev with hev | hev
        · exact htgaccok ev hev
        · exact hpraccok ev hev
      · rw [hfin, hc1]
        exact hpn5
      · intro _ _ n hn htime
        rw [hfin, hc1, hpn5]
        have := hcompl n hn (by rw [hlead]; exact htime)
        rw [he1, he0] at this
        exact this
      · intro nm sc mc acc hit tot dur hmem2
        rw [htcid, hcolid2] at hmem2
        simp only [List.append_nil, List.mem_append] at hmem2
        rcases hmem2 with hev | hev
        · exact (htgnotc _ hev nm sc mc acc hit tot dur rfl).elim
        · exact (hprnotc _ hev nm sc mc acc hit tot dur rfl).elim
    · have hcoleq2 : col = tc.1.handleCollision hit := by rw [hcoldef, hcoleq]
      have htc1pr : tc.1 = pr.1 := by rw [htcid]
      have h6 : TInv dif t col.1 := by
        rw [hcoleq2]
        exact TInv.collision dif t tc.1 (by rw [htc1pr]; exact h5) hit hhitmem
          (by rw [htc1pr]; exact hrun5)
      have hfin : col.1.difficultyPhase = col.1 := by
        unfold Engine.difficultyPhase
        rw [if_neg (by simp [h6.tm])]
      obtain ⟨-, -, -, -, hpnc, -, -, -, -, -, -, -, -, hbr⟩ :=
        handleCollision_spec tc.1 hit
      have hpn7 : col.1.processedNotes = e.processedNotes ++ ids := by
        rw [hcoleq2, hpnc, htc1pr, hpn5]
      have hcolev : ∀ ev ∈ col.2, eventAccOK ev = true ∧
          (∀ nm sc mc acc hit2 tot dur,
            ev = GameEvent.testComplete nm sc mc acc hit2 tot dur → False) := by
        intro ev hev
        rw [hcoleq2] at hev
        by_cases hko : tc.1.lives - 1 ≤ 0
        · rw [if_pos hko] at hbr
          rw [hbr.2] at hev
          rcases List.mem_cons.mp hev with rfl | hev2
          · exact ⟨by simp, fun nm sc mc acc hit2 tot dur hx => by cases hx⟩
          · rcases List.mem_singleton.mp hev2 with rfl
            exact ⟨by simp, fun nm sc mc acc hit2 tot dur hx => by cases hx⟩
        · rw [if_neg hko] at hbr
          rw [hbr.2.2] at hev
          rcases List.mem_singleton.mp hev with rfl
          exact ⟨by simp, fun nm sc mc acc hit2 tot dur hx => by cases hx⟩
      refine ⟨by rw [hfin]; exact h6, ?_, ⟨ids, ?_, hidsJ, ?_⟩, ?_⟩
      · intro ev hev
        rw [htcid] at hev
        simp only [List.append_nil, List.mem_append] at hev
        rcases hev with (hev | hev) | hev
        · exact htgaccok ev hev
        · exact hpraccok ev hev
        · exact (hcolev ev hev).1
      · rw [hfin]
        exact hpn7
      · intro _ _ n hn htime
        rw [hfin, hpn7]
        have := hcompl n hn (by rw [hlead]; exact htime)
        rw [he1, he0] at this
        exact this
      · intro nm sc mc acc hit2 tot dur hmem2
        rw [htcid] at hmem2
        simp only [List.append_nil, List.mem_append] at hmem2
        rcases hmem2 with (hev | hev) | hev
        · exact (htgnotc _ hev nm sc mc acc hit2 tot dur rfl).elim
        · exact (hprnotc _ hev nm sc mc acc hit2 tot dur rfl).elim
        · exact ((hcolev _ hev).2 nm sc mc acc hit2 tot dur rfl).elim
  case pos =>
  by_cases hcomp : pr.1.processedNotes.length = t.notes.length ∧ pr.1.obstacles.length = 0
  case neg =>
    have htcid : tc = (pr.1, []) := by
      rw [htcdef]
      unfold Engine.completionPhase
      rw [if_pos hguard]
      exact checkTestCompletion_not_complete pr.1 t h5.mt hcomp
    rcases collisionPhase_cases tc.1 with hcolid | ⟨hit, hhitmem, hinv, hcoleq⟩
    · have hcolid2 : col = (tc.1, []) := by rw [hcoldef, hcolid]
      have hc1 : col.1 = pr.1 := by rw [hcolid2, htcid]
      have hfin : col.1.difficultyPhase = col.1 := by
        unfold Engine.difficultyPhase
        rw [if_neg (by rw [hc1]; simp [h5.tm])]
      refine ⟨by rw [hfin, hc1]; exact h5, ?_, ⟨ids, ?_, hidsJ, ?_⟩, ?_⟩
      · intro ev hev
        rw [htcid, hcolid2] at hev
        simp only [List.append_nil, List.mem_append] at hev
        rcases hev with hev | hev
        · exact htgaccok ev hev
        · exact hpraccok ev hev
      · rw [hfin, hc1]
        exact hpn5
      · intro _ _ n hn htime
        rw [hfin, hc1, hpn5]
        have := hcompl n hn (by rw [hlead]; exact htime)
        rw [he1, he0] at this
        exact this
      · intro nm sc mc acc hit tot dur hmem2
        rw [htcid, hcolid2] at hmem2
        simp only [List.append_nil, List.mem_append] at hmem2
        rcases hmem2 with hev | hev
        · exact (htgnotc _ hev nm sc mc acc hit tot dur rfl).elim
        · exact (hprnotc _ hev nm sc mc acc hit tot dur rfl).elim
    · have hcoleq2 : col = tc.1.handleCollision hit := by rw [hcoldef, hcoleq]
      have htc1pr : tc.1 = pr.1 := by rw [htcid]
      have h6 : TInv dif t col.1 := by
        rw [hcoleq2]
        exact TInv.collision dif t tc.1 (by rw [htc1pr]; exact h5) hit hhitmem
          (by rw [htc1pr]; exact hrun5)
      have hfin : col.1.difficultyPhase = col.1 := by
        unfold Engine.difficultyPhase
        rw [if_neg (by simp [h6.tm])]
      obtain ⟨-, -, -, -, hpnc, -, -, -, -, -, -, -, -, hbr⟩ :=
        handleCollision_spec tc.1 hit
      have hpn7 : col.1.processedNotes = e.processedNotes ++ ids := by
        rw [hcoleq2, hpnc, htc1pr, hpn5]
      have hcolev : ∀ ev ∈ col.2, eventAccOK ev = true ∧
          (∀ nm sc mc acc hit2 tot dur,
            ev = GameEvent.testComplete nm sc mc acc hit2 tot dur → False) := by
        intro ev hev
        rw [hcoleq2] at hev
        by_cases hko : tc.1.lives - 1 ≤ 0
        · rw [if_pos hko] at hbr
          rw [hbr.2] at hev
          rcases List.mem_cons.mp hev with rfl | hev2
          · exact ⟨by simp, fun nm sc mc acc hit2 tot dur hx => by cases hx⟩
          · rcases List.mem_singleton.mp hev2 with rfl
            exact ⟨by simp, fun nm sc mc acc hit2 tot dur hx => by cases hx⟩
        · rw [if_neg hko] at hbr
          rw [hbr.2.2] at hev
          rcases List.mem_singleton.mp hev with rfl
          exact ⟨by simp, fun nm sc mc acc hit2 tot dur hx => by cases hx⟩
      refine ⟨by rw [hfin]; exact h6, ?_, ⟨ids, ?_, hidsJ, ?_⟩, ?_⟩
      · intro ev hev
        rw [htcid] at hev
        simp only [List.append_nil, List.mem_append] at hev
        rcases hev with (hev | hev) | hev
        · exact htgaccok ev hev
        · exact hpraccok ev hev
        · exact (hcolev ev hev).1
      · rw [hfin]
        exact hpn7
      · intro _ _ n hn htime
        rw [hfin, hpn7]
        have := hcompl n hn (by rw [hlead]; exact htime)
        rw [he1, he0] at this
        exact this
      · intro nm sc mc acc hit2 tot dur hmem2
        rw [htcid] at hmem2
        simp only [List.append_nil, List.mem_append] at hmem2
        rcases hmem2 with (hev | hev) | hev
        · exact (htgnotc _ hev nm sc mc acc hit2 tot dur rfl).elim
        · exact (hprnotc _ hev nm sc mc acc hit2 tot dur rfl).elim
        · exact ((hcolev _ hev).2 nm sc mc acc hit2 tot dur rfl).elim
  case pos =>
  -- the test completes on this tick
  have htcEq : tc = ({ pr.1 with testCompleted := true, isRunning := false },
      [GameEvent.testComplete t.name pr.1.scoreManager.score pr.1.scoreManager.maxCombo
        (if ((t.notes.length : ℤ)) > 0 then
          jsRound ((((t.notes.length : ℤ) - (pr.1.maxLives - pr.1.lives) : ℤ) : ℚ) /
            ((t.notes.length : ℤ) : ℚ) * 100)
        else 100)
        ((t.notes.length : ℤ) - (pr.1.maxLives - pr.1.lives)) (t.notes.length : ℤ)
        t.getTotalDuration]) := by
    rw [htcdef]
    unfold Engine.completionPhase
    rw [if_pos hguard]
    exact checkTestCompletion_complete pr.1 t h5.mt hcomp
  have htcobs : tc.1.obstacles = ([] : List Obstacle) := by
    rw [htcEq]
    exact List.length_eq_zero.mp hcomp.2
  have hcolid : col = (tc.1, []) := by
    rcases collisionPhase_cases tc.1 with hcolid | ⟨hit, hhitmem, -, -⟩
    · rw [hcoldef, hcolid]
    · rw [htcobs] at hhitmem
      exact absurd hhitmem (List.not_mem_nil hit)
  have h6 : TInv dif t tc.1 := by
    rw [htcEq]
    exact TInv.stop dif t pr.1 h5 true
  have hfin : col.1.difficultyPhase = col.1 := by
    unfold Engine.difficultyPhase
    rw [if_neg (by rw [hcolid]; simp [h6.tm])]
  have hfineq : col.1.difficultyPhase = tc.1 := by rw [hfin, hcolid]
  have hL0 : 0 ≤ pr.1.maxLives - pr.1.lives := by
    have := h5.lub
    have := h5.ml
    omega
  have hhit0 : 0 ≤ (t.notes.length : ℤ) - (pr.1.maxLives - pr.1.lives) := by
    have hacct := h5.acct
    rw [hcomp.1, hcomp.2] at hacct
    have := h5.snn
    have := h5.ml
    push_cast at hacct
    omega
  refine ⟨by rw [hfineq]; exact h6, ?_, ⟨ids, ?_, hidsJ, ?_⟩, ?_⟩
  · intro ev hev
    rw [htcEq, hcolid] at hev
    simp only [List.append_nil, List.mem_append] at hev
    rcases hev with (hev | hev) | hev
    · exact htgaccok ev hev
    · exact hpraccok ev hev
    · rcases List.mem_singleton.mp hev with rfl
      exact eventAccOK_testComplete t.name pr.1.scoreManager.score pr.1.scoreManager.maxCombo
        t.getTotalDuration (pr.1.maxLives - pr.1.lives) (t.notes.length : ℤ) hL0 hhit0
  · rw [hfineq, htcEq]
    exact hpn5
  · intro _ _ n hn htime
    rw [hfineq, htcEq]
    show noteId n ∈ pr.1.processedNotes
    rw [hpn5]
    have := hcompl n hn (by rw [hlead]; exact htime)
    rw [he1, he0] at this
    exact this
  · intro nm sc mc acc hit tot dur hmem2
    rw [htcEq, hcolid] at hmem2
    simp only [List.append_nil, List.mem_append] at hmem2
    rcases hmem2 with (hev | hev) | hev
    · exact (htgnotc _ hev nm sc mc acc hit tot dur rfl).elim
    · exact (hprnotc _ hev nm sc mc acc hit tot dur rfl).elim
    · have hinj := List.mem_singleton.mp hev
      rw [GameEvent.testComplete.injEq] at hinj
      obtain ⟨-, -, -, -, hhit, htot, -⟩ := hinj
      refine ⟨htot, ?_, by rw [hfineq, htcEq]⟩
      rw [hhit, htot]
      have hml6 : col.1.difficultyPhase.maxLives = pr.1.maxLives := by
        rw [hfineq, htcEq]
      have hlv6 : col.1.difficultyPhase.lives = pr.1.lives := by
        rw [hfineq, htcEq]
      rw [hml6, hlv6]

/-! ## The invariant over whole runs -/

theorem TInv.frame2 (dif : String) (t : MusicalTest) (e : Engine) (h : TInv dif t e)
    (p : Player) (ip inv : Bool) :
    TInv dif t { e with player := p, isPaused := ip, invulnerable := inv } :=
  ⟨h.tm, h.mt, h.ml, h.lpos, h.lub, h.lrun, h.gs, h.snn, h.acct, h.pnd, h.psub, h.noid,
   h.obnd, h.oblt⟩

/-- A fresh test session satisfies the test invariant. -/
theorem session_tinv (dif : String) (hs : ℤ) (t : MusicalTest) :
    TInv dif t (session dif hs (some t)) := by
  refine ⟨rfl, rfl, rfl, ?_, ?_, fun _ => ?_, rfl, ?_, ?_, List.nodup_nil,
    fun id hid => absurd hid (List.not_mem_nil id), rfl, List.nodup_nil,
    fun o ho => absurd ho (List.not_mem_nil o)⟩ <;>
    norm_num [session, Engine.init, Engine.setMusicalTest, Engine.start, ScoreManager.init]

/-- A tick never changes the pause flag. -/
theorem tick_isPaused (e : Engine) (now : ℚ) (rng : ℕ → ℚ × ℚ) :
    (e.tick now rng).1.isPaused = e.isPaused := by
  unfold Engine.tick
  by_cases hrun : (e.isRunning && !e.isPaused) = true
  case neg =>
    rw [if_neg hrun]
  rw [if_pos hrun]
  set e0 : Engine := { e with elapsedTime := now } with he0
  set e1 : Engine := { e0 with frameCount := e0.frameCount + 1, player := e0.player.update }
    with he1
  set e2 : Engine := e1.spawnPhase rng with he2
  set e3 : Engine := { e2 with obstacles := e2.obstacles.map Obstacle.update } with he3
  set tg := e3.targetPhase with htgdef
  set pr := tg.1.prunePhase with hprdef
  set tc := pr.1.completionPhase with htcdef
  set col := tc.1.collisionPhase with hcoldef
  have hU : Engine.update e0 rng = (col.1.difficultyPhase, tg.2 ++ pr.2 ++ tc.2 ++ col.2) := rfl
  rw [hU]
  obtain ⟨sa, sb, sc, sd, hsp⟩ := spawnPhase_keeps e1 rng
  obtain ⟨tgv, htg1, -⟩ := targetPhase_keeps e3
  have htg1p : tg.1.isPaused = e.isPaused := by
    rw [htgdef, htg1, he3, he2, hsp, he1, he0]
  have hpr1p : pr.1.isPaused = e.isPaused := htg1p
  have htcp : tc.1.isPaused = e.isPaused := by
    rcases completionPhase_cases pr.1 with hid | ⟨-, h1, -⟩
    · rw [htcdef, hid]
      exact hpr1p
    · rw [← htcdef] at h1
      rw [h1]
      exact hpr1p
  have hcolp : col.1.isPaused = e.isPaused := by
    rcases collisionPhase_cases tc.1 with hid | ⟨hit2, -, -, hceq⟩
    · rw [hcoldef, hid]
      exact htcp
    · have hhc := handleCollision_spec tc.1 hit2
      rw [hcoldef, hceq]
      rw [hhc.2.2.2.2.2.2.2.2.2.2.2.1]
      exact htcp
  obtain ⟨g2, ob2, hdp⟩ := difficultyPhase_keeps col.1
  rw [hdp]
  exact hcolp

/-- Processed note ids are never removed over a run. -/
theorem runTrace_processed_mono (dif : String) (t : MusicalTest) (e : Engine)
    (evs : List Ev) (h : TInv dif t e) (id : String) (hm : id ∈ e.processedNotes) :
    id ∈ (runTrace e evs).1.processedNotes := by
  induction evs generalizing e with
  | nil => exact hm
  | cons ev rest ih =>
    have hrt : runTrace e (ev :: rest) =
        ((runTrace (step e ev).1 rest).1, (step e ev).2 ++ (runTrace (step e ev).1 rest).2) := rfl
    rw [hrt]
    rcases step_cases e ev with ⟨now, rng, rfl, hs⟩ | ⟨p, ip, inv, hs⟩
    · rw [hs]
      obtain ⟨hInv, -, ⟨ids, hpn, -, -⟩, -⟩ := tick_tinv dif t e now rng h
      exact ih (e.tick now rng).1 hInv (by rw [hpn]; exact List.mem_append_left _ hm)
    · rw [hs]
      exact ih { e with player := p, isPaused := ip, invulnerable := inv }
        (TInv.frame2 dif t e h p ip inv) (by simpa using hm)

/-- The test invariant over whole runs: it is preserved, every emitted event
has a sane completion payload, the processed-note set only grows (each new
id taken from the test and justified by the clock of some tick of the run),
and every completion notification reports the test's note count and the
lives lost as of the final (stopped) state. -/
theorem runTrace_tinv (dif : String) (t : MusicalTest) (e : Engine) (evs : List Ev)
    (h : TInv dif t e) :
    TInv dif t (runTrace e evs).1 ∧
    (∀ ev ∈ (runTrace e evs).2, eventAccOK ev = true) ∧
    (∃ ids, (runTrace e evs).1.processedNotes = e.processedNotes ++ ids ∧
      ∀ id ∈ ids, ∃ n ∈ t.notes, noteId n = id ∧
        ∃ now rng, Ev.tick now rng ∈ evs ∧ now ≥ n.time - leadFor dif) ∧
    (∀ nm sc mc acc hit tot dur,
      GameEvent.testComplete nm sc mc acc hit tot dur ∈ (runTrace e evs).2 →
        tot = (t.notes.length : ℤ) ∧
        hit = tot - ((runTrace e evs).1.maxLives - (runTrace e evs).1.lives) ∧
        (runTrace e evs).1.isRunning = false) := by
  induction evs generalizing e with
  | nil =>
    exact ⟨h, by simp [runTrace], ⟨[], by simp [runTrace], by simp⟩,
      by simp [runTrace]⟩
  | cons ev rest ih =>
    have hrt : runTrace e (ev :: rest) =
        ((runTrace (step e ev).1 rest).1, (step e ev).2 ++ (runTrace (step e ev).1 rest).2) := rfl
    rw [hrt]
    rcases step_cases e ev with ⟨now, rng, rfl, hs⟩ | ⟨p, ip, inv, hs⟩
    · rw [hs]
      obtain ⟨hInv1, hacc1, ⟨ids1, hpn1, hjust1, -⟩, hpay1⟩ := tick_tinv dif t e now rng h
      obtain ⟨hInv2, hacc2, ⟨ids2, hpn2, hjust2⟩, hpay2⟩ := ih (e.tick now rng).1 hInv1
      refine ⟨hInv2, ?_, ⟨ids1 ++ ids2, ?_, ?_⟩, ?_⟩
      · intro ev2 hev2
        rcases List.mem_append.mp hev2 with h2 | h2
        · exact hacc1 ev2 h2
        · exact hacc2 ev2 h2
      · rw [hpn2, hpn1, List.append_assoc]
      · intro id hid
        rcases List.mem_append.mp hid with h2 | h2
        · obtain ⟨n, hn, hneq, hjt⟩ := hjust1 id h2
          exact ⟨n, hn, hneq, now, rng, List.mem_cons_self _ _, hjt⟩
        · obtain ⟨n, hn, hneq, now2, rng2, hin, hjt⟩ := hjust2 id h2
          exact ⟨n, hn, hneq, now2, rng2, List.mem_cons_of_mem _ hin, hjt⟩
      · intro nm sc mc acc hit tot dur hmem
        rcases List.mem_append.mp hmem with h2 | h2
        · obtain ⟨htot, hhit, hstop⟩ := hpay1 nm sc mc acc hit tot dur h2
          obtain ⟨-, hrr, hrl, hrm, -, -, -, -⟩ := runTrace_stopped (e.tick now rng).1 rest hstop
          exact ⟨htot, by rw [hrl, hrm]; exact hhit, hrr⟩
        · exact hpay2 nm sc mc acc hit tot dur h2
    · rw [hs]
      obtain ⟨hInv2, hacc2, ⟨ids2, hpn2, hjust2⟩, hpay2⟩ :=
        ih { e with player := p, isPaused := ip, invulnerable := inv }
          (TInv.frame2 dif t e h p ip inv)
      refine ⟨hInv2, ?_, ⟨ids2, by simpa using hpn2, ?_⟩, ?_⟩
      · intro ev2 hev2
        exact hacc2 ev2 (by simpa using hev2)
      · intro id hid
        obtain ⟨n, hn, hneq, now2, rng2, hin, hjt⟩ := hjust2 id hid
        exact ⟨n, hn, hneq, now2, rng2, List.mem_cons_of_mem _ hin, hjt⟩
      · intro nm sc mc acc hit tot dur hmem
        exact hpay2 nm sc mc acc hit tot dur (by simpa using hmem)

/-- If a run contains no pause, stays running to the end, and contains a
tick whose clock is past every note's spawn deadline, then every note of the
test ends up processed. -/
theorem runTrace_complete_aux (dif : String) (t : MusicalTest) (e : Engine)
    (evs : List Ev) (h : TInv dif t e) (q : ℚ)
    (hp : e.isPaused = false)
    (hnp : evs.all (fun ev => !ev.isPause) = true)
    (hfin : (runTrace e evs).1.isRunning = true)
    (htick : evs.any (tickAtLeast q) = true) :
    ∀ n ∈ t.notes, q ≥ n.time - leadFor dif →
      noteId n ∈ (runTrace e evs).1.processedNotes := by
  induction evs generalizing e with
  | nil => cases htick
  | cons ev rest ih =>
    have hnp2 : rest.all (fun ev => !ev.isPause) = true := by
      simp only [List.all_cons, Bool.and_eq_true] at hnp
      exact hnp.2
    have hnph : (!ev.isPause) = true := by
      simp only [List.all_cons, Bool.and_eq_true] at hnp
      exact hnp.1
    cases ev with
    | tick now rng =>
      by_cases hqn : q ≤ now
      · -- this tick is past every deadline: the spawn loop processes all notes
        have hrun : e.isRunning = true := by
          by_contra hc
          have hf : e.isRunning = false := by
            cases hre : e.isRunning
            · rfl
            · exact absurd hre hc
          have h2 := (runTrace_stopped e (Ev.tick now rng :: rest) hf).2.1
          rw [h2] at hfin
          cases hfin
        intro n hn hqt
        obtain ⟨hInv1, -, ⟨ids1, hpn1, -, hcomp1⟩, -⟩ := tick_tinv dif t e now rng h
        have hmem : noteId n ∈ (e.tick now rng).1.processedNotes :=
          hcomp1 hrun hp n hn (by linarith)
        exact runTrace_processed_mono dif t (e.tick now rng).1 rest hInv1 (noteId n) hmem
      · have htick2 : rest.any (tickAtLeast q) = true := by
          simp only [List.any_cons, Bool.or_eq_true] at htick
          rcases htick with hbad | hok
          · exfalso
            unfold tickAtLeast at hbad
            rw [decide_eq_true_iff] at hbad
            exact hqn hbad
          · exact hok
        obtain ⟨hInv1, -, -, -⟩ := tick_tinv dif t e now rng h
        have hp1 : (e.tick now rng).1.isPaused = false := by
          rw [tick_isPaused]
          exact hp
        exact ih (e.tick now rng).1 hInv1 hp1 hnp2 hfin htick2
    | jump =>
      exact ih e.makePlayerJump
        (TInv.frame2 dif t e h e.player.jump e.isPaused e.invulnerable) hp hnp2 hfin htick
    | invulnEnd =>
      exact ih { e with invulnerable := false }
        (TInv.frame2 dif t e h e.player e.isPaused false) hp hnp2 hfin htick
    | pause => cases hnph
    | resume =>
      exact ih e.resume
        (TInv.frame2 dif t e h e.player false e.invulnerable) rfl hnp2 hfin htick

/-- A duplicate-free list included in another list is no longer than it. -/
theorem nodup_subset_length_le {α : Type} [DecidableEq α] (l1 l2 : List α)
    (h1 : l1.Nodup) (hs : ∀ x ∈ l1, x ∈ l2) : l1.length ≤ l2.length := by
  calc l1.length = l1.toFinset.card := (List.toFinset_card_of_nodup h1).symm
    _ ≤ l2.toFinset.card := by
        apply Finset.card_le_card
        intro x hx
        rw [List.mem_toFinset] at hx ⊢
        exact hs x hx
    _ ≤ l2.length := l2.toFinset_card_le

/-! ### Claim C1 -/

/-- C1: (a) with the test active, every note processed and no obstacle left,
`_checkTestCompletion` stops the loop, marks the test completed, and
notifies once with `livesLost = maxLives - lives`,
`notesHit = totalNotes - livesLost` and
`accuracy = round(100 * notesHit / totalNotes)` (`100` when
`totalNotes = 0`); (b) over any session run, every completion callback is
emitted exactly once, reports `totalNotes` = the test's note count,
`notesHit = totalNotes - livesLost` for the final (stopped) state's lives,
the rounded accuracy value, `accuracy ∈ [0,100]`,
`notesHit ∈ [0, totalNotes]`, and in particular a 10-note test with 2
lives lost reports accuracy 80. -/
theorem test_completion_accuracy (dif : String) (hs : ℤ) (t : MusicalTest)
    (evs : List Ev) (e2 : Engine) :
    (e2.musicalTest = some t → e2.processedNotes.length = t.notes.length →
      e2.obstacles.length = 0 →
      e2.checkTestCompletion =
        ({ e2 with testCompleted := true, isRunning := false },
         [GameEvent.testComplete t.name e2.scoreManager.score e2.scoreManager.maxCombo
            (if ((t.notes.length : ℤ)) > 0 then
              jsRound ((((t.notes.length : ℤ) - (e2.maxLives - e2.lives) : ℤ) : ℚ) /
                ((t.notes.length : ℤ) : ℚ) * 100)
            else 100)
            ((t.notes.length : ℤ) - (e2.maxLives - e2.lives)) (t.notes.length : ℤ)
            t.getTotalDuration])) ∧
    (∀ nm sc mc acc hit tot dur,
      GameEvent.testComplete nm sc mc acc hit tot dur ∈
          (runTrace (session dif hs (some t)) evs).2 →
        tot = (t.notes.length : ℤ) ∧
        hit = tot - ((runTrace (session dif hs (some t)) evs).1.maxLives -
          (runTrace (session dif hs (some t)) evs).1.lives) ∧
        acc = (if 0 < tot then jsRound (((hit : ℤ) : ℚ) / ((tot : ℤ) : ℚ) * 100) else 100) ∧
        0 ≤ acc ∧ acc ≤ 100 ∧ 0 ≤ hit ∧ hit ≤ tot ∧
        (tot = 10 ∧ hit = 8 → acc = 80) ∧
        (runTrace (session dif hs (some t)) evs).1.isRunning = false ∧
        (runTrace (session dif hs (some t)) evs).2.countP GameEvent.isTestCompleteEv = 1) := by
  constructor
  · intro hmt hplen holen
    exact checkTestCompletion_complete e2 t hmt ⟨hplen, holen⟩
  · intro nm sc mc acc hit tot dur hmem
    obtain ⟨-, hacc, -, hpay⟩ :=
      runTrace_tinv dif t (session dif hs (some t)) evs (session_tinv dif hs t)
    obtain ⟨htot, hhit, hstop⟩ := hpay nm sc mc acc hit tot dur hmem
    have hok := hacc _ hmem
    unfold eventAccOK at hok
    simp only [Bool.and_eq_true, Bool.or_eq_true, Bool.not_eq_true', Bool.and_eq_false_iff,
      decide_eq_true_eq, decide_eq_false_iff_not] at hok
    obtain ⟨⟨⟨⟨⟨hok1, hok2⟩, hok3⟩, hok4⟩, hok5⟩, hok6⟩ := hok
    obtain ⟨-, -, hcnt⟩ :=
      runTrace_livesInv (session dif hs (some t)) evs (session_livesInv dif hs (some t))
    have hpos : 0 < (runTrace (session dif hs (some t)) evs).2.countP
        GameEvent.isTestCompleteEv := by
      rw [List.countP_pos_iff]
      exact ⟨_, hmem, by simp [GameEvent.isTestCompleteEv]⟩
    refine ⟨htot, hhit, hok5, hok1, hok2, hok3, hok4, ?_, hstop, by omega⟩
    rintro ⟨h10, h8⟩
    rcases hok6 with hl | hr
    · rcases hl with hl | hl
      · exact absurd h10 hl
      · exact absurd h8 hl
    · exact hr

/-- C1 witness: a session on an empty test completes on its first tick:
the loop stops, and exactly one completion callback is emitted; the
completion helper stops the engine on that state as well. -/
theorem test_completion_accuracy_witness :
    (session "easy" 0 (some ⟨"w1", "", []⟩)).checkTestCompletion.1.isRunning = false ∧
    (runTrace (session "easy" 0 (some ⟨"w1", "", []⟩))
        [Ev.tick 1 (fun _ => (0, 0))]).1.isRunning = false ∧
    (runTrace (session "easy" 0 (some ⟨"w1", "", []⟩))
        [Ev.tick 1 (fun _ => (0, 0))]).2.countP GameEvent.isTestCompleteEv = 1 := by
  have h := test_completion_accuracy "easy" 0 ⟨"w1", "", []⟩ [Ev.tick 1 (fun _ => (0, 0))]
    (session "easy" 0 (some ⟨"w1", "", []⟩))
  have ha := h.1 rfl rfl rfl
  have hb := h.2 "w1" 0 0 100 0 0 (MusicalTest.getTotalDuration ⟨"w1", "", []⟩) (by decide!)
  exact ⟨by rw [ha], hb.2.2.2.2.2.2.2.2.1, hb.2.2.2.2.2.2.2.2.2⟩

/-! ### Claim C2 -/

/-- C2 counterexample: a 2-note test whose notes share the duplicate key
`` `${gesture}-${time}` `` creates only one obstacle over the whole
session, not two. The run ticks twice past every spawn deadline, never
pauses, and is still running at the end, yet the all-time spawn counter is
1. This happens for notes sharing gesture and time, and also for notes
with distinct gestures and times whose key strings collide (gesture `"E"`
at time `-5` and gesture `"E-"` at time `5` both key to `"E--5"`). -/
theorem musical_spawn_duplicate_note_counterexample :
    ((runTrace (session "easy" 0 (some ⟨"dup", "", [⟨"E", 0, 500⟩, ⟨"E", 0, 500⟩]⟩))
        [Ev.tick 1000 (fun _ => (0, 0)), Ev.tick 2000 (fun _ => (0, 0))]).1.nextOid = 1) ∧
    ((⟨"dup", "", [⟨"E", 0, 500⟩, ⟨"E", 0, 500⟩]⟩ : MusicalTest).notes.length = 2) ∧
    ((runTrace (session "easy" 0 (some ⟨"dup", "", [⟨"E", 0, 500⟩, ⟨"E", 0, 500⟩]⟩))
        [Ev.tick 1000 (fun _ => (0, 0)), Ev.tick 2000 (fun _ => (0, 0))]).1.isRunning
      = true) ∧
    noteId ⟨"E", -5, 100⟩ = noteId ⟨"E-", 5, 100⟩ ∧
    ((⟨"E", -5, 100⟩ : Note) ≠ ⟨"E-", 5, 100⟩) ∧
    ((runTrace (session "easy" 0 (some ⟨"dup2", "", [⟨"E", -5, 100⟩, ⟨"E-", 5, 100⟩]⟩))
        [Ev.tick 1000 (fun _ => (0, 0)), Ev.tick 2000 (fun _ => (0, 0))]).1.nextOid
      = 1) := by
  decide!

/-- C2 (amended to distinct note keys): over a session run on a test whose
duplicate-detection key strings `` `${gesture}-${time}` `` are pairwise
distinct, if the run never pauses, stays running, and contains a tick past
every note's spawn deadline `note.time - spawnLeadTime`, then the all-time
obstacle count equals the note count, processed keys are distinct, drawn
from the test and exhaustive, and every processed key comes from a note of
the test whose deadline some tick's clock had reached — so each note
spawns exactly once and never twice. -/
theorem musical_spawn_schedule (dif : String) (hs : ℤ) (t : MusicalTest) (evs : List Ev)
    (q : ℚ)
    (hnd : (t.notes.map noteId).Nodup)
    (hnp : evs.all (fun ev => !ev.isPause) = true)
    (hfin : (runTrace (session dif hs (some t)) evs).1.isRunning = true)
    (hq : ∀ n ∈ t.notes, q ≥ n.time - leadFor dif)
    (htick : evs.any (tickAtLeast q) = true) :
    (runTrace (session dif hs (some t)) evs).1.nextOid = t.notes.length ∧
    (runTrace (session dif hs (some t)) evs).1.processedNotes.Nodup ∧
    (∀ id ∈ (runTrace (session dif hs (some t)) evs).1.processedNotes,
      id ∈ t.notes.map noteId) ∧
    (∀ n ∈ t.notes, noteId n ∈ (runTrace (session dif hs (some t)) evs).1.processedNotes) ∧
    (∀ id ∈ (runTrace (session dif hs (some t)) evs).1.processedNotes,
      ∃ n ∈ t.notes, noteId n = id ∧
        ∃ now rng, Ev.tick now rng ∈ evs ∧ now ≥ n.time - leadFor dif) := by
  have hT0 := session_tinv dif hs t
  obtain ⟨hInv, -, ⟨ids, hpn, hjust⟩, -⟩ :=
    runTrace_tinv dif t (session dif hs (some t)) evs hT0
  have hcompl := runTrace_complete_aux dif t (session dif hs (some t)) evs hT0 q rfl hnp
    hfin htick
  have hall : ∀ n ∈ t.notes,
      noteId n ∈ (runTrace (session dif hs (some t)) evs).1.processedNotes :=
    fun n hn => hcompl n hn (hq n hn)
  have hsub2 : ∀ x ∈ t.notes.map noteId,
      x ∈ (runTrace (session dif hs (some t)) evs).1.processedNotes := by
    intro x hx
    obtain ⟨n, hn, rfl⟩ := List.mem_map.mp hx
    exact hall n hn
  have hle1 : (runTrace (session dif hs (some t)) evs).1.processedNotes.length ≤
      (t.notes.map noteId).length :=
    nodup_subset_length_le _ _ hInv.pnd hInv.psub
  have hle2 : (t.notes.map noteId).length ≤
      (runTrace (session dif hs (some t)) evs).1.processedNotes.length :=
    nodup_subset_length_le _ _ hnd hsub2
  have hlen : (runTrace (session dif hs (some t)) evs).1.processedNotes.length =
      t.notes.length := by
    rw [List.length_map] at hle1 hle2
    omega
  refine ⟨by rw [hInv.noid, hlen], hInv.pnd, hInv.psub, hall, ?_⟩
  intro id hid
  have hpn2 : (runTrace (session dif hs (some t)) evs).1.processedNotes = ids := by
    rw [hpn]
    rfl
  rw [hpn2] at hid
  exact hjust id hid

/-- C2 witness: a 1-note session ticked once past the deadline has created
exactly one obstacle, with the note's identity processed. -/
theorem musical_spawn_schedule_witness :
    (runTrace (session "easy" 0 (some ⟨"w2", "", [⟨"E", 0, 500⟩]⟩))
        [Ev.tick 1000 (fun _ => (0, 0))]).1.nextOid = 1 ∧
    (runTrace (session "easy" 0 (some ⟨"w2", "", [⟨"E", 0, 500⟩]⟩))
        [Ev.tick 1000 (fun _ => (0, 0))]).1.processedNotes.Nodup := by
  have h := musical_spawn_schedule "easy" 0 ⟨"w2", "", [⟨"E", 0, 500⟩]⟩
    [Ev.tick 1000 (fun _ => (0, 0))] 0 (by decide!) (by decide!) (by decide!)
    (by decide!) (by decide!)
  exact ⟨h.1, h.2.1⟩

end FluteVision
